import Mathlib

/-!
Notes service (`index.js`): validation and persistence core.

A shallow embedding of the request validators (`getParam`, `getIntParam`, `getAddr`,
`getCost`, `getValue`), the record merger (`copyDefinedProperties`), the key deriver
(`noteKey`) and the handlers `setNote`, `getNote`, `deleteNote`, `listNotes`, followed by
theorems about them.

Modelling conventions.

* JavaScript values of request fields are `JsVal`: `undefined`, `null`, booleans, numbers,
  strings and arrays.  Object-valued fields are not modelled.
* Numbers are `JsNum`: the integer-valued doubles, `NaN` and the two infinities.  Negative zero
  is identified with zero (both print as `0` and neither is `< 0`); fractional numbers are not
  modelled.  Conversion of an exact integer to a double rounds to nearest, ties to even.
* Strings are Lean strings; `length` counts UTF-16 code units as JavaScript does.
* A thrown `Error` is `JsError.error message`; a `TypeError` raised by the runtime is
  `JsError.typeError`.
* An object is the list of its own properties; a request body and a stored record are objects.
  Properties inherited from `Object.prototype` are not modelled, so a property read of a name
  that is not an own property gives `undefined`.  The two places where an inherited member
  is used, the call `src.hasOwnProperty(key)` and an assignment to `__proto__`, are modelled.
* The datastore is a finite map from keys to records together with, for each kind of storage
  call, the error it fails with, if any.  A query selects the entities of a kind and orders
  them by a property; the ordering of property values is the datastore's own and is an
  argument of `listNotes`.  The response object records the calls made on it.
-/

namespace Notes

/-! ## Values -/

/-- JavaScript numbers that the validators can receive or produce. -/
inductive JsNum where
  | int (i : Int)
  | nan
  | posInf
  | negInf
  deriving DecidableEq, Repr

/-- JavaScript values carried by request fields and stored records. -/
inductive JsVal where
  | undefined
  | null
  | bool (b : Bool)
  | num (n : JsNum)
  | str (s : String)
  | arr (xs : List JsVal)
  deriving Repr

/-- Errors thrown by the code (`new Error(message)`) or by the runtime (`TypeError`). -/
inductive JsError where
  | error (message : String)
  | typeError
  deriving DecidableEq, Repr

/-- An object: its own enumerable properties in insertion order. -/
abbrev JsObj := List (String × JsVal)

/-- Property read `o[k]`: the value of the first property named `k`, else `undefined`. -/
def JsObj.get : JsObj → String → JsVal
  | [], _ => .undefined
  | (k, v) :: rest, name => if k = name then v else JsObj.get rest name

/-- Property write `o[k] = v`: overwrite in place, or append a new property. -/
def JsObj.set : JsObj → String → JsVal → JsObj
  | [], name, v => [(name, v)]
  | (k, w) :: rest, name, v =>
    if k = name then (k, v) :: rest else (k, w) :: JsObj.set rest name v

/-- The test `v === undefined`. -/
def JsVal.isUndefined : JsVal → Bool
  | .undefined => true
  | _ => false

/-- The test `v === null`. -/
def JsVal.isNull : JsVal → Bool
  | .null => true
  | _ => false

/-! ## Numbers and their decimal form -/

/-- The decimal digit character of `d < 10`. -/
def digitChar (d : Nat) : Char := Char.ofNat (48 + d)

/-- Decimal digits of `n`, most significant first, pushed in front of `acc`. -/
def digitsAux : Nat → Nat → List Char → List Char
  | 0, _, acc => acc
  | fuel + 1, n, acc =>
    if n < 10 then digitChar n :: acc
    else digitsAux fuel (n / 10) (digitChar (n % 10) :: acc)

/-- Decimal digits of a natural number (`0` gives `['0']`). -/
def natDigits (n : Nat) : List Char := digitsAux (n + 1) n []

/-- Number of binary digits of `n`. -/
def bitLenAux : Nat → Nat → Nat
  | 0, _ => 0
  | fuel + 1, n => if n = 0 then 0 else bitLenAux fuel (n / 2) + 1

/-- Number of binary digits of `n` (`0` for `0`). -/
def bitLen (n : Nat) : Nat := bitLenAux n n

/-- The double nearest to the exact integer `n` (round to nearest, ties to even);
`none` when the result overflows to `Infinity`. -/
def roundToDouble (n : Nat) : Option Nat :=
  if n < 2 ^ 53 then some n
  else
    let e := bitLen n - 53
    let q := n / 2 ^ e
    let r := n % 2 ^ e
    let half := 2 ^ (e - 1)
    let q1 := if r < half then q else if half < r then q + 1 else if q % 2 = 0 then q else q + 1
    let v := q1 * 2 ^ e
    if bitLen v ≤ 1024 then some v else none

/-- Candidates `(s, n)` with `k` digits for the shortest decimal form of the double `x`
whose exact value has `n0` digits: `s * 10 ^ (n - k)` must round to `x`. -/
def shortestCandidates (x n0 k : Nat) : List (Nat × Nat) :=
  let p := 10 ^ (n0 - k)
  let lo := x / p
  ([(lo, n0), (lo + 1, n0), (10 ^ (k - 1), n0 + 1)]).filter fun c =>
    decide (10 ^ (k - 1) ≤ c.1) && decide (c.1 < 10 ^ k) &&
      decide (roundToDouble (c.1 * 10 ^ (c.2 - k)) = some x)

/-- Distance between `x` and the value `s * 10 ^ (n - k)` of a candidate. -/
def candidateDist (x k : Nat) (c : Nat × Nat) : Nat :=
  let v := c.1 * 10 ^ (c.2 - k)
  if v ≤ x then x - v else v - x

/-- The better of two candidates: the closer one, and the even one on a tie. -/
def betterCandidate (x k : Nat) (a b : Nat × Nat) : Nat × Nat :=
  if candidateDist x k b < candidateDist x k a then b
  else if candidateDist x k a < candidateDist x k b then a
  else if a.1 % 2 = 0 then a else b

/-- Search for the least number of digits `k` (from `k` upwards) that identifies `x`;
returns `(s, k, n)`. -/
def shortestAux : Nat → Nat → Nat → Nat → Nat × Nat × Nat
  | 0, x, n0, _ => (x, n0, n0)
  | fuel + 1, x, n0, k =>
    match shortestCandidates x n0 k with
    | [] => if n0 ≤ k then (x, n0, n0) else shortestAux fuel x n0 (k + 1)
    | c :: cs =>
      let best := cs.foldl (betterCandidate x k) c
      (best.1, k, best.2)

/-- `Number::toString` for a positive integer-valued double, radix 10. -/
def natToString (x : Nat) : String :=
  if x < 2 ^ 53 then String.mk (natDigits x)
  else
    let n0 := (natDigits x).length
    let (s, k, n) := shortestAux n0 x n0 1
    if n ≤ 21 then String.mk (natDigits s ++ List.replicate (n - k) '0')
    else
      match natDigits s with
      | [] => ""
      | [d] => String.mk (d :: 'e' :: '+' :: natDigits (n - 1))
      | d :: ds => String.mk (d :: '.' :: ds ++ 'e' :: '+' :: natDigits (n - 1))

/-- `Number.prototype.toString(10)`, also `ToString` of a number. -/
def JsNum.toString : JsNum → String
  | .nan => "NaN"
  | .posInf => "Infinity"
  | .negInf => "-Infinity"
  | .int (Int.ofNat n) => natToString n
  | .int (Int.negSucc n) => "-" ++ natToString (n + 1)

/-- The comparison `x < 0` on numbers (`NaN` compares false). -/
def JsNum.ltZero : JsNum → Bool
  | .int i => decide (i < 0)
  | .negInf => true
  | _ => false

/-- Whether the number is an integer (neither `NaN` nor infinite). -/
def JsNum.isInteger : JsNum → Bool
  | .int _ => true
  | _ => false

/-! ## Strings -/

/-- White space and line terminators, the characters removed by `trim` and skipped by
`parseInt`. -/
def isJsWhiteSpace (c : Char) : Bool :=
  let n := c.toNat
  n = 9 || n = 10 || n = 11 || n = 12 || n = 13 || n = 32 || n = 160 || n = 5760 ||
    (8192 ≤ n && n ≤ 8202) || n = 8232 || n = 8233 || n = 8239 || n = 8287 || n = 12288 ||
    n = 65279

/-- `String.prototype.trim` on a character list. -/
def trimChars (cs : List Char) : List Char :=
  ((cs.dropWhile isJsWhiteSpace).reverse.dropWhile isJsWhiteSpace).reverse

/-- `String.prototype.trim`. -/
def jsTrim (s : String) : String := String.mk (trimChars s.data)

/-- Number of UTF-16 code units of a character. -/
def utf16Units (c : Char) : Nat := if c.toNat < 65536 then 1 else 2

/-- The `length` of a string: its number of UTF-16 code units. -/
def jsStrLength (s : String) : Nat := (s.data.map utf16Units).sum

/-- Whether `c` is a decimal digit. -/
def isDecDigit (c : Char) : Bool := 48 ≤ c.toNat && c.toNat ≤ 57

/-- Value of a string of decimal digits, continuing from `acc`. -/
def digitsValue : List Char → Nat → Nat
  | [], acc => acc
  | c :: cs, acc => digitsValue cs (acc * 10 + (c.toNat - 48))

/-- The number with magnitude `m` and the given sign, rounded to a double. -/
def signedDouble (negative : Bool) (m : Nat) : JsNum :=
  match roundToDouble m with
  | none => if negative then .negInf else .posInf
  | some v => if negative then .int (-(v : Int)) else .int v

/-- `parseInt(s, 10)`: skip leading white space, read an optional sign, then the longest
prefix of decimal digits; `NaN` when there is no digit. -/
def parseInt (s : String) : JsNum :=
  let body := s.data.dropWhile isJsWhiteSpace
  let (negative, rest) :=
    match body with
    | '-' :: r => (true, r)
    | '+' :: r => (false, r)
    | r => (false, r)
  match rest.takeWhile isDecDigit with
  | [] => .nan
  | ds => signedDouble negative (digitsValue ds 0)

mutual
/-- `ToString(v)`: the string a value is coerced to in a template literal or by
`RegExp.prototype.test`. -/
def JsVal.toStr : JsVal → String
  | .undefined => "undefined"
  | .null => "null"
  | .bool true => "true"
  | .bool false => "false"
  | .num n => n.toString
  | .str s => s
  | .arr xs => JsVal.joinStr xs
/-- `Array.prototype.join(",")` over the elements. -/
def JsVal.joinStr : List JsVal → String
  | [] => ""
  | [x] => JsVal.elemStr x
  | x :: y :: rest => JsVal.elemStr x ++ "," ++ JsVal.joinStr (y :: rest)
/-- The string of one array element inside `join`: empty for `undefined` and `null`. -/
def JsVal.elemStr : JsVal → String
  | .undefined => ""
  | .null => ""
  | .bool true => "true"
  | .bool false => "false"
  | .num n => n.toString
  | .str s => s
  | .arr xs => JsVal.joinStr xs
end

/-- The method call `v.toString(10)`: a `TypeError` on `undefined` and `null`. -/
def JsVal.toStringMethod : JsVal → Except JsError String
  | .undefined => .error .typeError
  | .null => .error .typeError
  | v => .ok v.toStr

/-- The property read `v.length`: `none` stands for `undefined`. -/
def JsVal.length : JsVal → Except JsError (Option Nat)
  | .undefined => .error .typeError
  | .null => .error .typeError
  | .str s => .ok (some (jsStrLength s))
  | .arr xs => .ok (some xs.length)
  | _ => .ok none

/-- The comparison `len > bound`, false when `len` is `undefined`. -/
def lengthGt (len : Option Nat) (bound : Nat) : Bool :=
  match len with
  | some l => decide (bound < l)
  | none => false

/-- The comparison `len < bound`, false when `len` is `undefined`. -/
def lengthLt (len : Option Nat) (bound : Nat) : Bool :=
  match len with
  | some l => decide (l < bound)
  | none => false

/-! ## Validators -/

/-- The class `[1-9A-HJ-NP-Za-km-z]`: the Base58 alphabet. -/
def isBase58 (c : Char) : Bool :=
  let n := c.toNat
  (49 ≤ n && n ≤ 57) || (65 ≤ n && n ≤ 72) || (74 ≤ n && n ≤ 78) || (80 ≤ n && n ≤ 90) ||
    (97 ≤ n && n ≤ 107) || (109 ≤ n && n ≤ 122)

/-- The test `base58.invalidRegExp.test(s)`: some character lies outside the Base58 alphabet. -/
def base58InvalidTest (s : String) : Bool := s.data.any fun c => !isBase58 c

/-- The text `base58.description`. -/
def base58Description : String :=
  "the numerals 1\u20139 (not 0), upper-case letters excluding O and I, and lower-case letters excluding l"

/-- The `options` argument of `getParam`. -/
structure Options where
  niceName : Option String
  mandatory : Bool
  notNull : Bool
  deriving DecidableEq, Repr

/-- The default `options = \x7b\x7d`. -/
def Options.empty : Options := ⟨none, false, false⟩

/-- The name used in messages: `options.niceName ? options.niceName : paramName`. -/
def Options.displayName (options : Options) (paramName : String) : String :=
  match options.niceName with
  | some n => if n = "" then paramName else n
  | none => paramName

/-- Message of the error thrown for an absent mandatory field. -/
def missingMessage (niceName paramName : String) : String :=
  "The " ++ niceName ++ " is not provided.  Please ensure the \"" ++ paramName ++
    "\" property exists in the request."

/-- Message of the error thrown for a null field that may not be null. -/
def nullMessage (niceName : String) : String := "The " ++ niceName ++ " may not be null."

/-- Message of the error thrown for a value that is not an integer. -/
def notIntegerMessage (paramName intValue strValue : String) : String :=
  paramName ++ " is not an integer (\"" ++ intValue ++ "\" != \"" ++ strValue ++ "\")."

/-- Message of the error thrown for an address of the wrong length. -/
def addrLengthMessage : String :=
  "The address is invalid length.  Please ensure the \"addr\" property has between 25 and 36 characters (exclusive)."

/-- Message of the error thrown for an address with characters outside Base58. -/
def addrCharsMessage : String :=
  "The address contains invalid characters.  Please ensure the \"addr\" property contains only " ++
    base58Description ++ "."

/-- Message of the error thrown for a negative field. -/
def negativeMessage (field : String) : String := "The " ++ field ++ " cannot be negative."

/-- The function `getParam(body, paramName, options)`. -/
def getParam (body : JsObj) (paramName : String) (options : Options) : Except JsError JsVal :=
  let niceName := options.displayName paramName
  if (body.get paramName).isUndefined then
    if options.mandatory then .error (.error (missingMessage niceName paramName))
    else .ok .undefined
  else if options.notNull && (body.get paramName).isNull then
    .error (.error (nullMessage niceName))
  else .ok (body.get paramName)

/-- The function `getIntParam(body, paramName, options)`; `none` is `undefined`. -/
def getIntParam (body : JsObj) (paramName : String) (options : Options) :
    Except JsError (Option JsNum) :=
  match getParam body paramName options with
  | .error e => .error e
  | .ok value =>
    if value.isUndefined then .ok none
    else
      match value.toStringMethod with
      | .error e => .error e
      | .ok str =>
        let strValue := jsTrim str
        let intValue := parseInt strValue
        if intValue.toString ≠ strValue then
          .error (.error (notIntegerMessage paramName intValue.toString strValue))
        else .ok (some intValue)

/-- The function `getAddr(body)`. -/
def getAddr (body : JsObj) : Except JsError JsVal :=
  match getParam body "addr" ⟨some "address", true, true⟩ with
  | .error e => .error e
  | .ok addr =>
    match addr.length with
    | .error e => .error e
    | .ok len =>
      if lengthGt len 35 || lengthLt len 26 then .error (.error addrLengthMessage)
      else if base58InvalidTest addr.toStr then .error (.error addrCharsMessage)
      else .ok addr

/-- The function `getCost(body)`. -/
def getCost (body : JsObj) : Except JsError (Option JsNum) :=
  match getIntParam body "cost" ⟨none, false, true⟩ with
  | .error e => .error e
  | .ok cost =>
    match cost with
    | some c => if c.ltZero then .error (.error (negativeMessage "cost")) else .ok cost
    | none => .ok cost

/-- The function `getValue(body)`. -/
def getValue (body : JsObj) : Except JsError (Option JsNum) :=
  match getIntParam body "value" ⟨none, false, true⟩ with
  | .error e => .error e
  | .ok value =>
    match value with
    | some v => if v.ltZero then .error (.error (negativeMessage "value")) else .ok value
    | none => .ok value

/-- The comparison `x >= 0` on numbers (`NaN` compares false). -/
def JsNum.geZero : JsNum → Bool
  | .int i => decide (0 ≤ i)
  | .posInf => true
  | _ => false

/-- A result of `getIntParam` as a value: `undefined` or the number. -/
def optNum : Option JsNum → JsVal
  | none => .undefined
  | some n => .num n

/-! ## Record merger -/

/-- The names of the own properties of an object, in enumeration order. -/
def JsObj.keys (o : JsObj) : List String := o.map Prod.fst

/-- The call `o.hasOwnProperty(key)`.  The method is inherited from `Object.prototype`; when
`o` has an own property of that name the call reaches its value, which is never a function,
and a `TypeError` is thrown. -/
def JsObj.hasOwnProperty (o : JsObj) (key : String) : Except JsError Bool :=
  if o.keys.contains "hasOwnProperty" then .error .typeError
  else .ok (o.keys.contains key)

/-- The assignment `o[key] = v`.  For the name `__proto__`, unless `o` has an own property of
that name, the assignment reaches the setter inherited from `Object.prototype`, which adds no
own property. -/
def JsObj.assign (o : JsObj) (key : String) (v : JsVal) : JsObj :=
  if key = "__proto__" && !o.keys.contains "__proto__" then o else o.set key v

/-- The loop of `copyDefinedProperties` over the enumerated keys of `src`. -/
def copyLoop (src : JsObj) : List String → JsObj → Except JsError JsObj
  | [], dst => .ok dst
  | key :: keys, dst =>
    if (src.get key).isUndefined then copyLoop src keys dst
    else
      match src.hasOwnProperty key with
      | .error e => .error e
      | .ok true => copyLoop src keys (dst.assign key (src.get key))
      | .ok false => copyLoop src keys dst

/-- The function `copyDefinedProperties(src, dst)`; the result is `dst` after the call, or the
error thrown. -/
def copyDefinedProperties (src dst : JsObj) : Except JsError JsObj :=
  copyLoop src src.keys dst

/-- The loop of `mergeDefined` over the field names of the source. -/
def mergeLoop (src : JsObj) : List String → JsObj → JsObj
  | [], dst => dst
  | key :: keys, dst =>
    if !(src.get key).isUndefined then mergeLoop src keys (dst.set key (src.get key))
    else mergeLoop src keys dst

/-- The record merger as the specification words it (`mergeDefined(source, target)`): every
field of the source whose value is defined overwrites the same-named field of the target, and
every other field of the target is left untouched. -/
def mergeDefined (src dst : JsObj) : JsObj :=
  mergeLoop src src.keys dst

/-! ## Datastore -/

mutual
/-- Structural equality of values. -/
def JsVal.beq : JsVal → JsVal → Bool
  | .undefined, .undefined => true
  | .null, .null => true
  | .bool a, .bool b => a == b
  | .num a, .num b => decide (a = b)
  | .str a, .str b => decide (a = b)
  | .arr xs, .arr ys => JsVal.beqList xs ys
  | _, _ => false
/-- Structural equality of lists of values. -/
def JsVal.beqList : List JsVal → List JsVal → Bool
  | [], [] => true
  | x :: xs, y :: ys => JsVal.beq x y && JsVal.beqList xs ys
  | _, _ => false
end

/-- A datastore key: the path `[kind, name]` passed to `datastore.key`. -/
structure Key where
  kind : String
  name : JsVal
  deriving Repr

/-- Equality of keys. -/
def Key.beq (a b : Key) : Bool := decide (a.kind = b.kind) && JsVal.beq a.name b.name

/-- The function `noteKey(addr)`. -/
def noteKey (addr : JsVal) : Key := ⟨"Note", addr⟩

/-- The stored entities: a map from key to record, as an association list. -/
abbrev Entities := List (Key × JsObj)

/-- The record stored under `key`, if any (a successful `datastore.get`). -/
def Entities.lookup : Entities → Key → Option JsObj
  | [], _ => none
  | (k, r) :: rest, key => if Key.beq k key then some r else Entities.lookup rest key

/-- Store `data` under `key`, replacing the record held there (a successful `datastore.save`). -/
def Entities.upsert : Entities → Key → JsObj → Entities
  | [], key, data => [(key, data)]
  | (k, r) :: rest, key, data =>
    if Key.beq k key then (k, data) :: rest else (k, r) :: Entities.upsert rest key data

/-- Remove the record under `key` (a successful `datastore.delete`). -/
def Entities.remove : Entities → Key → Entities
  | [], _ => []
  | (k, r) :: rest, key =>
    if Key.beq k key then Entities.remove rest key else (k, r) :: Entities.remove rest key

/-- The datastore seen by one handler call: its entities, and for each kind of storage call
the error it rejects with, if it fails. -/
structure Datastore where
  entities : Entities
  getError : Option JsError
  saveError : Option JsError
  deleteError : Option JsError
  queryError : Option JsError
  deriving Repr

/-- The property `err.message`; the text of a runtime `TypeError` is not modelled. -/
def JsError.message : JsError → String
  | .error m => m
  | .typeError => "TypeError"

/-! ## Handlers -/

/-- What is passed to `res.send` or to `Promise.reject`. -/
inductive Payload where
  | text (s : String)
  | note (record : JsObj)
  | notes (records : List JsObj)
  | err (e : JsError)
  deriving Repr

/-- One call `res.status(status).send(body)`. -/
structure Response where
  status : Nat
  body : Payload
  deriving Repr

/-- How a handler call ends: a synchronous throw, or the returned promise settles. -/
inductive Completion where
  | threw (e : JsError)
  | resolved
  | rejected (reason : Payload)
  deriving Repr

/-- The observable effect of one handler call. -/
structure Run where
  entities : Entities
  sent : List Response
  completion : Completion
  deriving Repr

/-- The validation prefix of `setNote`: the `params` object and the address, evaluated in
source order (`cost`, `value`, `costUnit`, `status`, `valueUnit`, `addr`). -/
def setNoteParams (body : JsObj) : Except JsError (JsObj × JsVal) :=
  match getCost body with
  | .error e => .error e
  | .ok cost =>
    match getValue body with
    | .error e => .error e
    | .ok value =>
      match getParam body "costUnit" ⟨none, cost.isSome, true⟩ with
      | .error e => .error e
      | .ok costUnit =>
        match getParam body "status" Options.empty with
        | .error e => .error e
        | .ok status =>
          match getParam body "valueUnit" ⟨none, value.isSome, true⟩ with
          | .error e => .error e
          | .ok valueUnit =>
            match getAddr body with
            | .error e => .error e
            | .ok addr =>
              .ok ([("cost", optNum cost), ("costUnit", costUnit), ("status", status),
                ("value", optNum value), ("valueUnit", valueUnit)], addr)

/-- The response text of `setNote` and `deleteNote`. -/
def actionText (addr : JsVal) (action : String) : String :=
  "\x7b\"addr\":\"" ++ addr.toStr ++ "\",\"action\":\"" ++ action ++ "\"\x7d"

/-- The handler `exports.setNote`. -/
def setNote (ds : Datastore) (body : JsObj) : Run :=
  match setNoteParams body with
  | .error e => ⟨ds.entities, [], .threw e⟩
  | .ok (params, addr) =>
    let key := noteKey addr
    match ds.getError with
    | some err => ⟨ds.entities, [⟨500, .text err.message⟩], .rejected (.err err)⟩
    | none =>
      let found := ds.entities.lookup key
      let action := if found.isNone then "created" else "updated"
      match copyDefinedProperties params (found.getD []) with
      | .error err => ⟨ds.entities, [⟨500, .text err.message⟩], .rejected (.err err)⟩
      | .ok data =>
        match ds.saveError with
        | some err =>
          ⟨ds.entities, [⟨500, .text err.message⟩, ⟨500, .text err.message⟩],
            .rejected (.err err)⟩
        | none =>
          ⟨ds.entities.upsert key data, [⟨200, .text (actionText addr action)⟩], .resolved⟩

/-- Message of the error thrown by `getNote` when no record exists. -/
def notFoundMessage (addr : JsVal) : String :=
  "There are no notes with the address " ++ addr.toStr ++ "."

/-- The handler `exports.getNote`. -/
def getNote (ds : Datastore) (body : JsObj) : Run :=
  match getAddr body with
  | .error e => ⟨ds.entities, [], .threw e⟩
  | .ok addr =>
    let key := noteKey addr
    match ds.getError with
    | some err => ⟨ds.entities, [⟨500, .text err.message⟩], .rejected (.err err)⟩
    | none =>
      match ds.entities.lookup key with
      | none =>
        let err := JsError.error (notFoundMessage addr)
        ⟨ds.entities, [⟨500, .text err.message⟩], .rejected (.err err)⟩
      | some note => ⟨ds.entities, [⟨200, .note (note.set "addr" addr)⟩], .resolved⟩

/-- The handler `exports.deleteNote`. -/
def deleteNote (ds : Datastore) (body : JsObj) : Run :=
  match getAddr body with
  | .error e => ⟨ds.entities, [], .threw e⟩
  | .ok addr =>
    let key := noteKey addr
    match ds.deleteError with
    | some err => ⟨ds.entities, [⟨500, .err err⟩], .rejected (.text err.message)⟩
    | none => ⟨ds.entities.remove key, [⟨200, .text (actionText addr "deleted")⟩], .resolved⟩

/-- The datastore after a handler call: the entities it left, the same storage behaviour. -/
def Datastore.after (ds : Datastore) (run : Run) : Datastore :=
  ⟨run.entities, ds.getError, ds.saveError, ds.deleteError, ds.queryError⟩

/-- The property `key.name`: the second path element when it is a string; a key made from
any other path element has no name. -/
def Key.nameProp (k : Key) : JsVal :=
  match k.name with
  | .str s => .str s
  | _ => .undefined

/-- A datastore query: the kind it selects, and the property it orders by with the direction
(`true` for descending), if any. -/
structure Query where
  kind : String
  orderBy : Option (String × Bool)

/-- The call `datastore.createQuery(kind)`. -/
def createQuery (kind : String) : Query := ⟨kind, none⟩

/-- The call `query.order(property, options)`, with the `descending` flag of the options. -/
def Query.order (q : Query) (property : String) (descending : Bool) : Query :=
  ⟨q.kind, some (property, descending)⟩

/-- The entities that the map holds: each key once, with the record that `lookup` finds. -/
def Entities.visible : Entities → Entities
  | [] => []
  | (k, r) :: rest => (k, r) :: Entities.remove (Entities.visible rest) k

/-- Insert an entity into a list ordered by a property, before the first entity whose value
of the property it does not exceed. -/
def insertOrdered (le : JsVal → JsVal → Bool) (property : String) (x : Key × JsObj) :
    List (Key × JsObj) → List (Key × JsObj)
  | [] => [x]
  | y :: ys =>
    if le (x.2.get property) (y.2.get property) then x :: y :: ys
    else y :: insertOrdered le property x ys

/-- Order a list of entities by a property. -/
def sortByProperty (le : JsVal → JsVal → Bool) (property : String) :
    List (Key × JsObj) → List (Key × JsObj)
  | [] => []
  | x :: xs => insertOrdered le property x (sortByProperty le property xs)

/-- Modelled from the spec: the storage collaborator's `query(kind, orderBy)`, which gives an
ordered list of records with retrievable keys.  A successful `datastore.runQuery(query)` gives
the stored entities of the kind of the query, ordered by the property of the query, ascending
unless `descending` is set.  The ordering `le` of property values (of `undefined` for a record
without the property) is the datastore's own and is an argument. -/
def runQuery (le : JsVal → JsVal → Bool) (entities : Entities) (q : Query) :
    List (Key × JsObj) :=
  match q.orderBy with
  | none => entities.visible.filter fun kr => decide (kr.1.kind = q.kind)
  | some (property, descending) =>
    sortByProperty (fun a b => if descending then le b a else le a b) property
      (entities.visible.filter fun kr => decide (kr.1.kind = q.kind))

/-- The handler `exports.listNotes`; `le` is the datastore's ordering of property values. -/
def listNotes (le : JsVal → JsVal → Bool) (ds : Datastore) : Run :=
  let query := (createQuery "Note").order "value" false
  match ds.queryError with
  | some err => ⟨ds.entities, [⟨500, .err err⟩], .rejected (.text err.message)⟩
  | none =>
    ⟨ds.entities,
      [⟨200, .notes ((runQuery le ds.entities query).map
        fun kr => kr.2.set "addr" kr.1.nameProp)⟩],
      .resolved⟩

/-- A call of one of the four handlers, with its request body (for `listNotes`, with the
ordering of property values the datastore uses). -/
inductive Call where
  | setNote (body : JsObj)
  | getNote (body : JsObj)
  | deleteNote (body : JsObj)
  | listNotes (le : JsVal → JsVal → Bool)

/-- One handler invocation: the call, and how each kind of storage call behaves during it. -/
structure Invocation where
  call : Call
  getError : Option JsError
  saveError : Option JsError
  deleteError : Option JsError
  queryError : Option JsError

/-- Run one invocation against the stored entities. -/
def Invocation.run (entities : Entities) (i : Invocation) : Run :=
  match i.call with
  | .setNote body =>
    setNote ⟨entities, i.getError, i.saveError, i.deleteError, i.queryError⟩ body
  | .getNote body =>
    getNote ⟨entities, i.getError, i.saveError, i.deleteError, i.queryError⟩ body
  | .deleteNote body =>
    deleteNote ⟨entities, i.getError, i.saveError, i.deleteError, i.queryError⟩ body
  | .listNotes le =>
    listNotes le ⟨entities, i.getError, i.saveError, i.deleteError, i.queryError⟩

/-- The stored entities after a sequence of invocations. -/
def runAll : Entities → List Invocation → Entities
  | entities, [] => entities
  | entities, i :: rest => runAll (i.run entities).entities rest

/-- The fields that `setNote` collects in `params`. -/
def noteFields : List String := ["cost", "costUnit", "status", "value", "valueUnit"]

/-- A well-formed address, used in examples. -/
def sampleAddr : String := "1BvBMSEYstWetqTFn5Au4m4GFg7xJaNVN2"

/-- A datastore with no entity in which every storage call succeeds. -/
def emptyDatastore : Datastore := ⟨[], none, none, none, none⟩

/-- A datastore holding one note for `sampleAddr`, in which every storage call succeeds. -/
def sampleDatastore : Datastore :=
  ⟨[(noteKey (.str sampleAddr), [("cost", .num (.int 5)), ("costUnit", .str "USD")])],
    none, none, none, none⟩

/-- The integer a value holds, if it is an integer. -/
def JsVal.intOf : JsVal → Option Int
  | .num (.int i) => some i
  | _ => none

/-- A sample ordering of property values: integers in increasing order, after every value
that is not an integer. -/
def sampleOrder (a b : JsVal) : Bool :=
  match a.intOf, b.intOf with
  | some i, some j => decide (i ≤ j)
  | some _, none => false
  | none, _ => true

/-- A datastore holding two notes, stored in descending order of `value`, and an entity of
another kind, in which every storage call succeeds. -/
def sampleNotesDatastore : Datastore :=
  ⟨[(noteKey (.str "3J98t1WpEZ73CNmQviecrnyiWrnqRhWNLy"), [("value", .num (.int 2))]),
    (⟨"Other", .str "x"⟩, [("value", .num (.int 0))]),
    (noteKey (.str "1BvBMSEYstWetqTFn5Au4m4GFg7xJaNVN2"), [("value", .num (.int 1))])],
    none, none, none, none⟩

/-- A datastore with no entity whose `save` fails. -/
def failingSaveDatastore : Datastore := ⟨[], none, some (.error "unavailable"), none, none⟩

/-- A datastore with no entity whose `delete` fails. -/
def failingDeleteDatastore : Datastore := ⟨[], none, none, some (.error "unavailable"), none⟩

/-- A sequence of calls: a `setNote` whose body carries `addr` and an extra field, a `getNote`,
a `listNotes` and a `deleteNote` for another address, all with succeeding storage calls. -/
def sampleCalls : List Invocation :=
  [⟨.setNote [("addr", .str sampleAddr), ("cost", .str "7"), ("costUnit", .str "EUR"),
      ("foo", .str "bar")], none, none, none, none⟩,
    ⟨.getNote [("addr", .str sampleAddr)], none, none, none, none⟩,
    ⟨.listNotes sampleOrder, none, none, none, none⟩,
    ⟨.deleteNote [("addr", .str "3J98t1WpEZ73CNmQviecrnyiWrnqRhWNLy")], none, none, none, none⟩]

/-- The invariant of the store: every key has kind `Note` and every record has only fields
among those `setNote` collects. -/
def StoreInvariant (entities : Entities) : Prop :=
  ∀ key record, (key, record) ∈ entities →
    key.kind = "Note" ∧ ∀ f ∈ record.keys, f ∈ noteFields

/-! ## Facts about the validators -/

theorem utf16Units_of_isBase58 (c : Char) (h : isBase58 c = true) : utf16Units c = 1 := by
  simp only [isBase58, Bool.or_eq_true, Bool.and_eq_true, decide_eq_true_eq] at h
  simp only [utf16Units]
  split
  · rfl
  · omega

theorem sum_utf16Units_of_isBase58 (cs : List Char) (h : ∀ c ∈ cs, isBase58 c = true) :
    (cs.map utf16Units).sum = cs.length := by
  induction cs with
  | nil => rfl
  | cons c cs ih =>
    simp only [List.map_cons, List.sum_cons, List.length_cons]
    rw [ih (fun d hd => h d (List.mem_cons_of_mem _ hd)),
      utf16Units_of_isBase58 c (h c (List.mem_cons_self _ _))]
    omega

theorem base58InvalidTest_eq_false (s : String) (h : ∀ c ∈ s.data, isBase58 c = true) :
    base58InvalidTest s = false := by
  simp only [base58InvalidTest, List.any_eq_false, Bool.not_eq_true', Bool.not_eq_false']
  simpa using h

theorem base58InvalidTest_eq_true (s : String) (c : Char) (hc : c ∈ s.data)
    (h : isBase58 c = false) : base58InvalidTest s = true := by
  simp only [base58InvalidTest, List.any_eq_true, Bool.not_eq_true']
  exact ⟨c, hc, h⟩

theorem getParam_addr_str (body : JsObj) (a : String) (h : body.get "addr" = .str a) :
    getParam body "addr" ⟨some "address", true, true⟩ = .ok (.str a) := by
  simp [getParam, h, JsVal.isUndefined, JsVal.isNull]

/-- C1: an address string of 26 to 35 characters, all in the Base58 alphabet, is returned
unchanged by `getAddr`. -/
theorem getAddr_accepts_base58 (body : JsObj) (a : String)
    (haddr : body.get "addr" = .str a)
    (hlen : 26 ≤ jsStrLength a ∧ jsStrLength a ≤ 35)
    (hchars : ∀ c ∈ a.data, isBase58 c = true) :
    getAddr body = .ok (.str a) := by
  have h1 : ¬ (35 < jsStrLength a) := by omega
  have h2 : ¬ (jsStrLength a < 26) := by omega
  simp [getAddr, getParam_addr_str body a haddr, JsVal.length, lengthGt, lengthLt, h1, h2,
    JsVal.toStr, base58InvalidTest_eq_false a hchars]

theorem getAddr_accepts_base58_witness :
    getAddr [("addr", .str "1BvBMSEYstWetqTFn5Au4m4GFg7xJaNVN2")] =
      .ok (.str "1BvBMSEYstWetqTFn5Au4m4GFg7xJaNVN2") :=
  getAddr_accepts_base58 _ _ rfl (by decide) (by decide)

/-- C2: `getAddr` returns the number `5` supplied as `addr`, a value that is not a string of
26 to 35 Base58 characters: a number has no `length`, so neither length comparison holds, and
its decimal form `5` has no character outside the alphabet. -/
theorem getAddr_returns_number :
    getAddr [("addr", .num (.int 5))] = .ok (.num (.int 5)) := by
  rfl

theorem getAddr_ok_str (body : JsObj) (a : String) (h : getAddr body = .ok (.str a)) :
    26 ≤ jsStrLength a ∧ jsStrLength a ≤ 35 ∧ ∀ c ∈ a.data, isBase58 c = true := by
  unfold getAddr at h
  cases hp : getParam body "addr" ⟨some "address", true, true⟩ with
  | error e => rw [hp] at h; cases h
  | ok addr =>
    rw [hp] at h
    simp only at h
    cases hl : addr.length with
    | error e => rw [hl] at h; cases h
    | ok len =>
      rw [hl] at h
      simp only at h
      split at h
      · cases h
      · rename_i hlen
        split at h
        · cases h
        · rename_i hch
          injection h with h
          subst h
          simp only [JsVal.length] at hl
          injection hl with hl
          subst hl
          simp only [lengthGt, lengthLt, Bool.or_eq_true, decide_eq_true_eq, not_or, not_lt]
            at hlen
          simp only [JsVal.toStr, base58InvalidTest, Bool.not_eq_true, List.any_eq_false,
            Bool.not_eq_true', Bool.not_eq_false'] at hch
          exact ⟨hlen.2, hlen.1, fun c hc => by simpa using hch c hc⟩

theorem joinStr_has_comma (x y : JsVal) (rest : List JsVal) :
    ',' ∈ (JsVal.joinStr (x :: y :: rest)).data := by
  simp [JsVal.joinStr, String.data_append]

theorem getAddr_rejects_array (body : JsObj) (xs : List JsVal)
    (haddr : body.get "addr" = .arr xs) :
    getAddr body = .error (.error addrLengthMessage) ∨
      getAddr body = .error (.error addrCharsMessage) := by
  have hp : getParam body "addr" ⟨some "address", true, true⟩ = .ok (.arr xs) := by
    simp [getParam, haddr, JsVal.isUndefined, JsVal.isNull]
  by_cases hlen : (lengthGt (some xs.length) 35 || lengthLt (some xs.length) 26) = true
  · left
    simp [getAddr, hp, JsVal.length, hlen]
  · right
    have h26 : 26 ≤ xs.length := by
      simp only [lengthGt, lengthLt, Bool.or_eq_true, decide_eq_true_eq, not_or, not_lt] at hlen
      exact hlen.2
    have hbad : base58InvalidTest (JsVal.arr xs).toStr = true := by
      match xs, h26 with
      | x :: y :: rest, _ =>
        exact base58InvalidTest_eq_true _ ',' (by
          simp only [JsVal.toStr]
          exact joinStr_has_comma x y rest) (by decide)
    simp [getAddr, hp, JsVal.length, hlen, hbad]

/-- C3: an address string of at most 25 or at least 36 UTF-16 code units fails with the
invalid-length error, whatever its characters. -/
theorem getAddr_rejects_length (body : JsObj) (a : String)
    (haddr : body.get "addr" = .str a)
    (hlen : jsStrLength a ≤ 25 ∨ 36 ≤ jsStrLength a) :
    getAddr body = .error (.error addrLengthMessage) := by
  have h : 35 < jsStrLength a ∨ jsStrLength a < 26 := by omega
  simp [getAddr, getParam_addr_str body a haddr, JsVal.length, lengthGt, lengthLt, h]

theorem getAddr_rejects_length_witness :
    getAddr [("addr", .str "short0OIl")] = .error (.error addrLengthMessage) :=
  getAddr_rejects_length _ _ rfl (by decide)

/-- C4, as stated, fails: the one-character address `0` contains the character `0`, yet
`getAddr` fails with the invalid-length error and not with the invalid-characters error. -/
theorem getAddr_zero_not_chars_error :
    '0' ∈ ("0" : String).data ∧
      getAddr [("addr", .str "0")] = .error (.error addrLengthMessage) ∧
      getAddr [("addr", .str "0")] ≠ .error (.error addrCharsMessage) := by
  refine ⟨by decide, rfl, ?_⟩
  intro h
  have h2 : getAddr [("addr", .str "0")] = .error (.error addrLengthMessage) := rfl
  rw [h2] at h
  injection h with h
  injection h with h
  revert h
  decide

/-- C4, amended: an address string of 26 to 35 UTF-16 code units that contains one of the
characters `0`, `O`, `I`, `l` fails with the invalid-characters error. -/
theorem getAddr_rejects_ambiguous_chars (body : JsObj) (a : String)
    (haddr : body.get "addr" = .str a)
    (hlen : 26 ≤ jsStrLength a ∧ jsStrLength a ≤ 35)
    (hchar : ∃ c ∈ a.data, c = '0' ∨ c = 'O' ∨ c = 'I' ∨ c = 'l') :
    getAddr body = .error (.error addrCharsMessage) := by
  obtain ⟨c, hc, hcase⟩ := hchar
  have hbad : isBase58 c = false := by
    rcases hcase with h | h | h | h <;> subst h <;> decide
  have h1 : ¬ (35 < jsStrLength a) := by omega
  have h2 : ¬ (jsStrLength a < 26) := by omega
  simp [getAddr, getParam_addr_str body a haddr, JsVal.length, lengthGt, lengthLt, h1, h2,
    JsVal.toStr, base58InvalidTest_eq_true a c hc hbad]

theorem getAddr_rejects_ambiguous_chars_witness :
    getAddr [("addr", .str "1BvBMSEYstWetqTFn5Au4m4GFg7xJaNVN0")] =
      .error (.error addrCharsMessage) :=
  getAddr_rejects_ambiguous_chars _ _ rfl (by decide) ⟨'0', by decide, Or.inl rfl⟩

/-- C5: for the string `NaN`, which is not integer-valued, `getIntParam` does not fail: the
parse gives `NaN`, whose printed form equals the input, and `NaN` is returned, a result that is
not an integer. -/
theorem getIntParam_returns_nan :
    getIntParam [("cost", .str "NaN")] "cost" ⟨none, false, true⟩ = .ok (some .nan) ∧
      JsNum.isInteger .nan = false := by
  exact ⟨rfl, rfl⟩

theorem getIntParam_rounds_large :
    getIntParam [("cost", .str "123456789012345680000")] "cost" ⟨none, false, true⟩ =
      .ok (some (.int 123456789012345683968)) := by
  rfl

theorem getIntParam_of_small_decimal :
    getIntParam [("cost", .str " 42 ")] "cost" ⟨none, false, true⟩ = .ok (some (.int 42)) ∧
      getIntParam [("cost", .str "12.5")] "cost" ⟨none, false, true⟩ =
        .error (.error (notIntegerMessage "cost" "12" "12.5")) ∧
      getIntParam [("cost", .str "12abc")] "cost" ⟨none, false, true⟩ =
        .error (.error (notIntegerMessage "cost" "12" "12abc")) ∧
      getIntParam [("cost", .str "007")] "cost" ⟨none, false, true⟩ =
        .error (.error (notIntegerMessage "cost" "7" "007")) ∧
      getIntParam [("cost", .str "abc")] "cost" ⟨none, false, true⟩ =
        .error (.error (notIntegerMessage "cost" "NaN" "abc")) := by
  exact ⟨rfl, rfl, rfl, rfl, rfl⟩

/-- C6: for the supplied string `NaN`, `getCost` and `getValue` return `NaN`, a defined result
that is not `>= 0`. -/
theorem getCost_getValue_return_nan :
    getCost [("cost", .str "NaN")] = .ok (some .nan) ∧
      getValue [("value", .str "NaN")] = .ok (some .nan) ∧
      JsNum.geZero .nan = false := by
  exact ⟨rfl, rfl, rfl⟩

theorem JsVal.isUndefined_iff (v : JsVal) : v.isUndefined = true ↔ v = .undefined := by
  cases v <;> simp [JsVal.isUndefined]

theorem JsVal.isNull_iff (v : JsVal) : v.isNull = true ↔ v = .null := by
  cases v <;> simp [JsVal.isNull]

theorem getParam_ok (body : JsObj) (name : String) (options : Options) (v : JsVal)
    (h : getParam body name options = .ok v) : v = body.get name := by
  unfold getParam at h
  by_cases hu : (body.get name).isUndefined = true
  · rw [if_pos hu] at h
    by_cases hm : options.mandatory = true
    · rw [if_pos hm] at h; cases h
    · rw [if_neg hm] at h
      injection h with h
      rw [← h, (JsVal.isUndefined_iff _).1 hu]
  · rw [if_neg hu] at h
    by_cases hn : (options.notNull && (body.get name).isNull) = true
    · rw [if_pos hn] at h; cases h
    · rw [if_neg hn] at h
      injection h with h
      exact h.symm

theorem getIntParam_isSome (body : JsObj) (name : String) (options : Options)
    (r : Option JsNum) (h : getIntParam body name options = .ok r) :
    r.isSome = !(body.get name).isUndefined := by
  unfold getIntParam at h
  cases hp : getParam body name options with
  | error e => rw [hp] at h; cases h
  | ok value =>
    have hv := getParam_ok body name options value hp
    rw [hp] at h
    simp only at h
    rw [← hv]
    by_cases hu : value.isUndefined = true
    · rw [if_pos hu] at h
      injection h with h
      rw [← h, hu]; rfl
    · rw [if_neg hu] at h
      cases hs : value.toStringMethod with
      | error e => rw [hs] at h; cases h
      | ok str =>
        rw [hs] at h
        simp only at h
        split at h
        · cases h
        · injection h with h
          rw [← h]
          simp [hu]

theorem getIntParam_ok_cases (body : JsObj) (name : String) (options : Options) (n : JsNum)
    (h : getIntParam body name options = .ok (some n)) : n.isInteger = true ∨ n = .nan := by
  unfold getIntParam at h
  cases hp : getParam body name options with
  | error e => rw [hp] at h; cases h
  | ok value =>
    rw [hp] at h
    simp only at h
    split at h
    · cases h
    · cases hs : value.toStringMethod with
      | error e => rw [hs] at h; cases h
      | ok str =>
        rw [hs] at h
        simp only at h
        split at h
        · cases h
        · rename_i hrt
          injection h with h
          injection h with h
          have hrt2 : (parseInt (jsTrim str)).toString = jsTrim str := by simpa using hrt
          rw [h] at hrt2
          cases n with
          | int i => exact Or.inl rfl
          | nan => exact Or.inr rfl
          | posInf =>
            exfalso
            have h2 : jsTrim str = "Infinity" := hrt2.symm
            rw [h2] at h
            revert h
            decide
          | negInf =>
            exfalso
            have h2 : jsTrim str = "-Infinity" := hrt2.symm
            rw [h2] at h
            revert h
            decide

theorem getCost_ok_cases (body : JsObj) (n : JsNum) (h : getCost body = .ok (some n)) :
    n.geZero = true ∨ n = .nan := by
  unfold getCost at h
  cases hi : getIntParam body "cost" ⟨none, false, true⟩ with
  | error e => rw [hi] at h; cases h
  | ok r =>
    rw [hi] at h
    cases r with
    | none => cases h
    | some m =>
      simp only at h
      split at h
      · cases h
      · rename_i hlt
        injection h with h
        injection h with h
        subst h
        rcases getIntParam_ok_cases _ _ _ _ hi with h1 | h1
        · cases m with
          | int i =>
            simp only [JsNum.ltZero, decide_eq_true_eq, not_lt] at hlt
            exact Or.inl (by simpa [JsNum.geZero] using hlt)
          | nan => exact Or.inr rfl
          | posInf => exact Or.inl rfl
          | negInf => cases h1
        · exact Or.inr h1

theorem getCost_absent (body : JsObj) (h : body.get "cost" = .undefined) :
    getCost body = .ok none := by
  simp [getCost, getIntParam, getParam, h, JsVal.isUndefined]

theorem getCost_negative (body : JsObj) (n : JsNum)
    (h : getIntParam body "cost" ⟨none, false, true⟩ = .ok (some n)) (hn : n.ltZero = true) :
    getCost body = .error (.error (negativeMessage "cost")) := by
  simp [getCost, h, hn]

theorem getCost_isSome (body : JsObj) (c : Option JsNum) (h : getCost body = .ok c) :
    c.isSome = !(body.get "cost").isUndefined := by
  unfold getCost at h
  cases hi : getIntParam body "cost" ⟨none, false, true⟩ with
  | error e => simp [hi] at h
  | ok r =>
    have := getIntParam_isSome body "cost" _ r hi
    simp only [hi] at h
    cases r with
    | none => simp at h; subst h; exact this
    | some n =>
      simp only at h
      split at h
      · simp at h
      · simp at h; subst h; exact this

theorem getValue_isSome (body : JsObj) (v : Option JsNum) (h : getValue body = .ok v) :
    v.isSome = !(body.get "value").isUndefined := by
  unfold getValue at h
  cases hi : getIntParam body "value" ⟨none, false, true⟩ with
  | error e => simp [hi] at h
  | ok r =>
    have := getIntParam_isSome body "value" _ r hi
    simp only [hi] at h
    cases r with
    | none => simp at h; subst h; exact this
    | some n =>
      simp only at h
      split at h
      · simp at h
      · simp at h; subst h; exact this

theorem getParam_error (body : JsObj) (name : String) (options : Options) (e : JsError)
    (h : getParam body name options = .error e) :
    (e = .error (missingMessage (options.displayName name) name) ∧
        body.get name = .undefined ∧ options.mandatory = true) ∨
      (e = .error (nullMessage (options.displayName name)) ∧
        body.get name = .null ∧ options.notNull = true) := by
  unfold getParam at h
  by_cases hu : (body.get name).isUndefined = true
  · rw [if_pos hu] at h
    by_cases hm : options.mandatory = true
    · rw [if_pos hm] at h
      injection h with h
      exact Or.inl ⟨h.symm, (JsVal.isUndefined_iff _).1 hu, hm⟩
    · rw [if_neg hm] at h; cases h
  · rw [if_neg hu] at h
    by_cases hn : (options.notNull && (body.get name).isNull) = true
    · rw [if_pos hn] at h
      injection h with h
      rw [Bool.and_eq_true] at hn
      exact Or.inr ⟨h.symm, (JsVal.isNull_iff _).1 hn.2, hn.1⟩
    · rw [if_neg hn] at h; cases h

theorem getParam_undefined (body : JsObj) (name : String) (options : Options)
    (hu : body.get name = .undefined) (hm : options.mandatory = false) :
    getParam body name options = .ok .undefined := by
  simp [getParam, hu, hm, JsVal.isUndefined]

theorem getParam_missing (body : JsObj) (name : String) (options : Options)
    (hu : body.get name = .undefined) (hm : options.mandatory = true) :
    getParam body name options =
      .error (.error (missingMessage (options.displayName name) name)) := by
  simp [getParam, hu, hm, JsVal.isUndefined]

theorem getParam_defined (body : JsObj) (name : String) (options : Options)
    (hu : body.get name ≠ .undefined) (hn : body.get name ≠ .null) :
    getParam body name options = .ok (body.get name) := by
  have h1 : (body.get name).isUndefined = false := by
    cases h : (body.get name).isUndefined
    · rfl
    · exact absurd ((JsVal.isUndefined_iff _).1 h) hu
  have h2 : (body.get name).isNull = false := by
    cases h : (body.get name).isNull
    · rfl
    · exact absurd ((JsVal.isNull_iff _).1 h) hn
  simp [getParam, h1, h2]

theorem getParam_empty (body : JsObj) (name : String) :
    getParam body name Options.empty = .ok (body.get name) := by
  by_cases hu : (body.get name).isUndefined = true
  · simp [getParam, hu, Options.empty, (JsVal.isUndefined_iff _).1 hu]
  · simp [getParam, hu, Options.empty]

theorem getAddr_error (body : JsObj) (e : JsError) (h : getAddr body = .error e) :
    e = .error (missingMessage "address" "addr") ∨ e = .error (nullMessage "address") ∨
      e = .error addrLengthMessage ∨ e = .error addrCharsMessage := by
  unfold getAddr at h
  cases hp : getParam body "addr" ⟨some "address", true, true⟩ with
  | error e1 =>
    rw [hp] at h
    injection h with h
    subst h
    rcases getParam_error _ _ _ _ hp with h1 | h1
    · exact Or.inl h1.1
    · exact Or.inr (Or.inl h1.1)
  | ok addr =>
    have hv := getParam_ok _ _ _ _ hp
    rw [hp] at h
    simp only at h
    cases hl : addr.length with
    | error e2 =>
      exfalso
      have hnu : ¬ (body.get "addr").isUndefined = true := by
        intro hu
        simp [getParam, hu] at hp
      have hnn : ¬ (body.get "addr").isNull = true := by
        intro hn
        simp [getParam, hnu, hn] at hp
      rw [hv] at hl
      cases hb : body.get "addr" <;> simp [hb, JsVal.length, JsVal.isUndefined, JsVal.isNull] at hl hnu hnn
    | ok len =>
      rw [hl] at h
      simp only at h
      split at h
      · injection h with h
        exact Or.inr (Or.inr (Or.inl h.symm))
      · split at h
        · injection h with h
          exact Or.inr (Or.inr (Or.inr h.symm))
        · cases h

theorem setNote_of_error (ds : Datastore) (body : JsObj) (e : JsError)
    (h : setNoteParams body = .error e) : setNote ds body = ⟨ds.entities, [], .threw e⟩ := by
  simp [setNote, h]

theorem setNote_threw (ds : Datastore) (body : JsObj) (e : JsError)
    (h : (setNote ds body).completion = .threw e) : setNoteParams body = .error e := by
  cases hp : setNoteParams body with
  | error e1 =>
    rw [setNote_of_error ds body e1 hp] at h
    injection h with h
    rw [h]
  | ok pa =>
    exfalso
    obtain ⟨params, addr⟩ := pa
    unfold setNote at h
    rw [hp] at h
    simp only at h
    cases hg : ds.getError with
    | some err => rw [hg] at h; cases h
    | none =>
      rw [hg] at h
      simp only at h
      cases hc : copyDefinedProperties params ((ds.entities.lookup (noteKey addr)).getD []) with
      | error err => rw [hc] at h; cases h
      | ok data =>
        rw [hc] at h
        simp only at h
        cases hs : ds.saveError with
        | some err => rw [hs] at h; cases h
        | none => rw [hs] at h; cases h

theorem isSome_eq_true_iff_defined (o : Option JsNum) (x : JsVal)
    (h : o.isSome = !x.isUndefined) : o.isSome = true ↔ x ≠ .undefined := by
  rw [h]
  cases x <;> simp [JsVal.isUndefined]

/-- C7, as stated, fails: the request with `cost` 5, no `costUnit` and `value` "-1" supplies a
valid cost and no cost unit, yet it fails with the negative-value error, not with the
missing-field error for `costUnit`. -/
theorem setNote_cost_without_unit_other_error :
    getCost [("cost", .num (.int 5)), ("value", .str "-1")] = .ok (some (.int 5)) ∧
      JsObj.get [("cost", .num (.int 5)), ("value", .str "-1")] "costUnit" = .undefined ∧
      setNoteParams [("cost", .num (.int 5)), ("value", .str "-1")] =
        .error (.error (negativeMessage "value")) ∧
      negativeMessage "value" ≠ missingMessage "costUnit" "costUnit" := by
  refine ⟨rfl, rfl, rfl, ?_⟩
  decide

/-- C7, amended: for every `setNote` request whose `cost` and `value` pass validation, the
`mandatory` option of `costUnit` (of `valueUnit`) is set exactly when `cost` (`value`) is
supplied; a supplied cost without `costUnit` fails with the missing-field error naming
`costUnit`; a supplied value without `valueUnit`, when `costUnit` passes its own check, fails
with the missing-field error naming `valueUnit`; and a request with neither `cost` nor
`costUnit` (neither `value` nor `valueUnit`) never fails with the missing-field error for that
unit. -/
theorem setNote_unit_mandatory_iff_supplied (ds : Datastore) (body : JsObj)
    (c v : Option JsNum) (hc : getCost body = .ok c) (hv : getValue body = .ok v) :
    (c.isSome = true ↔ body.get "cost" ≠ .undefined) ∧
    (v.isSome = true ↔ body.get "value" ≠ .undefined) ∧
    (body.get "cost" ≠ .undefined → body.get "costUnit" = .undefined →
      setNote ds body =
        ⟨ds.entities, [], .threw (.error (missingMessage "costUnit" "costUnit"))⟩) ∧
    (body.get "value" ≠ .undefined → body.get "valueUnit" = .undefined →
      (body.get "cost" = .undefined ∨ body.get "costUnit" ≠ .undefined) →
      body.get "costUnit" ≠ .null →
      setNote ds body =
        ⟨ds.entities, [], .threw (.error (missingMessage "valueUnit" "valueUnit"))⟩) ∧
    (body.get "cost" = .undefined → body.get "costUnit" = .undefined →
      (setNote ds body).completion ≠ .threw (.error (missingMessage "costUnit" "costUnit"))) ∧
    (body.get "value" = .undefined → body.get "valueUnit" = .undefined →
      (setNote ds body).completion ≠
        .threw (.error (missingMessage "valueUnit" "valueUnit"))) := by
  have hci := isSome_eq_true_iff_defined c _ (getCost_isSome body c hc)
  have hvi := isSome_eq_true_iff_defined v _ (getValue_isSome body v hv)
  refine ⟨hci, hvi, ?_, ?_, ?_, ?_⟩
  · intro hcost hunit
    apply setNote_of_error
    have hm := getParam_missing body "costUnit" ⟨none, c.isSome, true⟩ hunit (hci.2 hcost)
    simp only [setNoteParams, hc, hv, hm]
    rfl
  · intro hvalue hunit hcu hnn
    apply setNote_of_error
    have hm := getParam_missing body "valueUnit" ⟨none, v.isSome, true⟩ hunit (hvi.2 hvalue)
    have hcu2 : ∃ cu, getParam body "costUnit" ⟨none, c.isSome, true⟩ = .ok cu := by
      by_cases hd : body.get "costUnit" = .undefined
      · rcases hcu with h | h
        · refine ⟨_, getParam_undefined body "costUnit" _ hd ?_⟩
          cases hs : c.isSome
          · rfl
          · exact absurd h (hci.1 hs)
        · exact absurd hd h
      · exact ⟨_, getParam_defined body "costUnit" _ hd hnn⟩
    obtain ⟨cu, hcu3⟩ := hcu2
    simp only [setNoteParams, hc, hv, hcu3, getParam_empty, hm]
    rfl
  · intro hcost hunit hcompl
    have herr := setNote_threw ds body _ hcompl
    have hs : c.isSome = false := by
      cases hs : c.isSome
      · rfl
      · exact absurd hcost (hci.1 hs)
    have hcu := getParam_undefined body "costUnit" ⟨none, c.isSome, true⟩ hunit hs
    simp only [setNoteParams, hc, hv, hcu, getParam_empty] at herr
    cases hvu : getParam body "valueUnit" ⟨none, v.isSome, true⟩ with
    | error e =>
      rw [hvu] at herr
      injection herr with herr
      subst herr
      rcases getParam_error _ _ _ _ hvu with h | h
      · exact absurd (show JsError.error (missingMessage "costUnit" "costUnit") =
          .error (missingMessage "valueUnit" "valueUnit") from h.1) (by decide)
      · exact absurd (show JsError.error (missingMessage "costUnit" "costUnit") =
          .error (nullMessage "valueUnit") from h.1) (by decide)
    | ok vu =>
      rw [hvu] at herr
      simp only at herr
      cases ha : getAddr body with
      | error e =>
        rw [ha] at herr
        injection herr with herr
        subst herr
        rcases getAddr_error _ _ ha with h | h | h | h <;> exact absurd h (by decide)
      | ok addr => rw [ha] at herr; cases herr
  · intro hvalue hunit hcompl
    have herr := setNote_threw ds body _ hcompl
    have hs : v.isSome = false := by
      cases hs : v.isSome
      · rfl
      · exact absurd hvalue (hvi.1 hs)
    have hvu := getParam_undefined body "valueUnit" ⟨none, v.isSome, true⟩ hunit hs
    simp only [setNoteParams, hc, hv, getParam_empty] at herr
    cases hcu : getParam body "costUnit" ⟨none, c.isSome, true⟩ with
    | error e =>
      rw [hcu] at herr
      injection herr with herr
      subst herr
      rcases getParam_error _ _ _ _ hcu with h | h
      · exact absurd (show JsError.error (missingMessage "valueUnit" "valueUnit") =
          .error (missingMessage "costUnit" "costUnit") from h.1) (by decide)
      · exact absurd (show JsError.error (missingMessage "valueUnit" "valueUnit") =
          .error (nullMessage "costUnit") from h.1) (by decide)
    | ok cu =>
      rw [hcu, hvu] at herr
      simp only at herr
      cases ha : getAddr body with
      | error e =>
        rw [ha] at herr
        injection herr with herr
        subst herr
        rcases getAddr_error _ _ ha with h | h | h | h <;> exact absurd h (by decide)
      | ok addr => rw [ha] at herr; cases herr

theorem setNote_unit_mandatory_iff_supplied_witness :
    setNote ⟨[], none, none, none, none⟩ [("cost", .num (.int 5))] =
        ⟨[], [], .threw (.error (missingMessage "costUnit" "costUnit"))⟩ ∧
      (setNote ⟨[], none, none, none, none⟩ [("status", .str "paid")]).completion ≠
        .threw (.error (missingMessage "costUnit" "costUnit")) :=
  ⟨(setNote_unit_mandatory_iff_supplied ⟨[], none, none, none, none⟩
      [("cost", .num (.int 5))] (some (.int 5)) none rfl rfl).2.2.1
      (by simp [JsObj.get]) rfl,
    (setNote_unit_mandatory_iff_supplied ⟨[], none, none, none, none⟩
      [("status", .str "paid")] none none rfl rfl).2.2.2.2.1 rfl rfl⟩

/-! ## Facts about records and the datastore -/

mutual
theorem JsVal.beq_self : ∀ (a : JsVal), JsVal.beq a a = true
  | .undefined => by simp [JsVal.beq]
  | .null => by simp [JsVal.beq]
  | .bool a => by simp [JsVal.beq]
  | .num a => by simp [JsVal.beq]
  | .str a => by simp [JsVal.beq]
  | .arr xs => by simp [JsVal.beq, JsVal.beqList_self xs]
theorem JsVal.beqList_self : ∀ (xs : List JsVal), JsVal.beqList xs xs = true
  | [] => by simp [JsVal.beqList]
  | x :: xs => by simp [JsVal.beqList, JsVal.beq_self x, JsVal.beqList_self xs]
end

theorem Key.beq_same (k : Key) : Key.beq k k = true := by
  simp [Key.beq, JsVal.beq_self]

theorem JsObj.get_set (o : JsObj) (k : String) (v : JsVal) (name : String) :
    (o.set k v).get name = if k = name then v else o.get name := by
  induction o with
  | nil => simp [JsObj.set, JsObj.get]
  | cons p rest ih =>
    obtain ⟨k1, w⟩ := p
    by_cases h1 : k1 = k
    · subst h1
      by_cases h2 : k1 = name
      · simp [JsObj.set, JsObj.get, h2]
      · simp [JsObj.set, JsObj.get, h2]
    · by_cases h2 : k1 = name
      · subst h2
        have h3 : ¬ k = k1 := fun h => h1 h.symm
        simp [JsObj.set, JsObj.get, h1, h3]
      · simp [JsObj.set, JsObj.get, h1, h2, ih]

theorem JsObj.get_eq_undefined_of_not_mem (o : JsObj) (name : String) (h : name ∉ o.keys) :
    o.get name = .undefined := by
  induction o with
  | nil => rfl
  | cons p rest ih =>
    obtain ⟨k, v⟩ := p
    simp only [JsObj.keys, List.map_cons, List.mem_cons, not_or] at h
    have hk : ¬ k = name := fun e => h.1 e.symm
    simp only [JsObj.get, hk, if_false]
    exact ih h.2

theorem mergeLoop_get (src : JsObj) (keys : List String) (dst : JsObj) (name : String) :
    (mergeLoop src keys dst).get name =
      if name ∈ keys ∧ (src.get name).isUndefined = false then src.get name
      else dst.get name := by
  induction keys generalizing dst with
  | nil => simp [mergeLoop]
  | cons key keys ih =>
    unfold mergeLoop
    by_cases hu : (src.get key).isUndefined = true
    · simp only [hu, Bool.not_true, Bool.false_eq_true, if_false]
      rw [ih]
      by_cases hk : name = key
      · subst hk
        simp [hu]
      · simp [hk]
    · have hu2 : (src.get key).isUndefined = false := by simpa using hu
      simp only [hu2, Bool.not_false, if_true]
      rw [ih, JsObj.get_set]
      by_cases hk : key = name
      · subst hk
        simp [hu2]
      · have hk2 : ¬ name = key := fun h => hk h.symm
        simp [hk, hk2]

theorem JsObj.contains_keys_of_defined (o : JsObj) (name : String)
    (h : (o.get name).isUndefined = false) : o.keys.contains name = true := by
  by_cases hm : name ∈ o.keys
  · simpa using hm
  · rw [JsObj.get_eq_undefined_of_not_mem o name hm] at h
    cases h

theorem copyLoop_eq_ok (src : JsObj) (keys : List String) (dst : JsObj)
    (hown : "hasOwnProperty" ∉ src.keys) (hproto : "__proto__" ∉ keys) :
    copyLoop src keys dst = .ok (mergeLoop src keys dst) := by
  induction keys generalizing dst with
  | nil => rfl
  | cons key keys ih =>
    have hkey : ¬ key = "__proto__" := fun h => hproto (by rw [h]; exact List.mem_cons_self _ _)
    have hrest : "__proto__" ∉ keys := fun h => hproto (List.mem_cons_of_mem _ h)
    have hcall : src.hasOwnProperty key = .ok (src.keys.contains key) := by
      simp [JsObj.hasOwnProperty, hown]
    unfold copyLoop mergeLoop
    by_cases hu : (src.get key).isUndefined = true
    · simp only [hu, if_true, Bool.not_true, Bool.false_eq_true, if_false]
      exact ih dst hrest
    · have hu2 : (src.get key).isUndefined = false := by simpa using hu
      simp only [hu2, Bool.false_eq_true, if_false, Bool.not_false, if_true, hcall,
        JsObj.contains_keys_of_defined src key hu2]
      have hassign : dst.assign key (src.get key) = dst.set key (src.get key) := by
        simp [JsObj.assign, hkey]
      rw [hassign]
      exact ih _ hrest

theorem copyDefinedProperties_eq_ok (src dst : JsObj)
    (hown : "hasOwnProperty" ∉ src.keys) (hproto : "__proto__" ∉ src.keys) :
    copyDefinedProperties src dst = .ok (mergeDefined src dst) :=
  copyLoop_eq_ok src src.keys dst hown hproto

theorem Entities.lookup_upsert_self (e : Entities) (key : Key) (data : JsObj) :
    (e.upsert key data).lookup key = some data := by
  induction e with
  | nil => simp [Entities.upsert, Entities.lookup, Key.beq_same]
  | cons p rest ih =>
    obtain ⟨k, r⟩ := p
    by_cases h : Key.beq k key = true
    · simp [Entities.upsert, Entities.lookup, h]
    · simp [Entities.upsert, Entities.lookup, h, ih]

theorem Entities.lookup_remove_self (e : Entities) (key : Key) :
    (e.remove key).lookup key = none := by
  induction e with
  | nil => simp [Entities.remove, Entities.lookup]
  | cons p rest ih =>
    obtain ⟨k, r⟩ := p
    by_cases h : Key.beq k key = true
    · simp [Entities.remove, h, ih]
    · simp [Entities.remove, Entities.lookup, h, ih]

theorem Entities.remove_remove (e : Entities) (key : Key) :
    (e.remove key).remove key = e.remove key := by
  induction e with
  | nil => simp [Entities.remove]
  | cons p rest ih =>
    obtain ⟨k, r⟩ := p
    by_cases h : Key.beq k key = true
    · simp [Entities.remove, h, ih]
    · simp [Entities.remove, h, ih]

theorem setNoteParams_ok (body : JsObj) (params : JsObj) (addr : JsVal)
    (h : setNoteParams body = .ok (params, addr)) :
    ∃ c v, getCost body = .ok c ∧ getValue body = .ok v ∧ getAddr body = .ok addr ∧
      params = [("cost", optNum c), ("costUnit", body.get "costUnit"),
        ("status", body.get "status"), ("value", optNum v),
        ("valueUnit", body.get "valueUnit")] := by
  unfold setNoteParams at h
  cases hc : getCost body with
  | error e => rw [hc] at h; cases h
  | ok c =>
    rw [hc] at h
    simp only at h
    cases hv : getValue body with
    | error e => rw [hv] at h; cases h
    | ok v =>
      rw [hv] at h
      simp only at h
      cases hcu : getParam body "costUnit" ⟨none, c.isSome, true⟩ with
      | error e => rw [hcu] at h; cases h
      | ok cu =>
        rw [hcu, getParam_empty] at h
        simp only at h
        cases hvu : getParam body "valueUnit" ⟨none, v.isSome, true⟩ with
        | error e => rw [hvu] at h; cases h
        | ok vu =>
          rw [hvu] at h
          simp only at h
          cases ha : getAddr body with
          | error e => rw [ha] at h; cases h
          | ok a =>
            rw [ha] at h
            simp only at h
            injection h with h
            injection h with h1 h2
            refine ⟨c, v, rfl, rfl, by rw [h2], ?_⟩
            rw [← h1, getParam_ok _ _ _ _ hcu, getParam_ok _ _ _ _ hvu]

theorem setNoteParams_keys (body params : JsObj) (addr : JsVal)
    (h : setNoteParams body = .ok (params, addr)) : params.keys = noteFields := by
  obtain ⟨c, v, _, _, _, hparams⟩ := setNoteParams_ok body params addr h
  rw [hparams]
  rfl

theorem copyDefinedProperties_params (body params : JsObj) (addr : JsVal)
    (h : setNoteParams body = .ok (params, addr)) (dst : JsObj) :
    copyDefinedProperties params dst = .ok (mergeDefined params dst) := by
  have hk := setNoteParams_keys body params addr h
  apply copyDefinedProperties_eq_ok <;> rw [hk] <;> decide

theorem optNum_isUndefined (o : Option JsNum) : (optNum o).isUndefined = !o.isSome := by
  cases o <;> rfl

theorem setNote_resolved (ds : Datastore) (body : JsObj)
    (h : (setNote ds body).completion = .resolved) :
    ∃ params addr, setNoteParams body = .ok (params, addr) ∧ ds.getError = none ∧
      ds.saveError = none ∧
      setNote ds body =
        ⟨ds.entities.upsert (noteKey addr)
            (mergeDefined params ((ds.entities.lookup (noteKey addr)).getD [])),
          [⟨200, .text (actionText addr
            (if (ds.entities.lookup (noteKey addr)).isNone then "created" else "updated"))⟩],
          .resolved⟩ := by
  cases hp : setNoteParams body with
  | error e => rw [setNote_of_error ds body e hp] at h; cases h
  | ok pa =>
    obtain ⟨params, addr⟩ := pa
    cases hg : ds.getError with
    | some err => simp [setNote, hp, hg] at h
    | none =>
      cases hs : ds.saveError with
      | some err => simp [setNote, hp, hg, hs, copyDefinedProperties_params body params addr hp] at h
      | none =>
        refine ⟨params, addr, rfl, rfl, rfl, ?_⟩
        simp [setNote, hp, hg, hs, copyDefinedProperties_params body params addr hp]

theorem mergeDefined_get (src dst : JsObj) (name : String) :
    (mergeDefined src dst).get name =
      if name ∈ src.keys ∧ (src.get name).isUndefined = false then src.get name
      else dst.get name :=
  mergeLoop_get src (src.keys) dst name

theorem isUndefined_eq_false_of_ne (x : JsVal) (h : x ≠ .undefined) :
    x.isUndefined = false := by
  cases x <;> simp [JsVal.isUndefined] at h ⊢

theorem actionText_injective (addr : JsVal) (a b : String)
    (h : actionText addr a = actionText addr b) : a = b := by
  unfold actionText at h
  have h2 := congrArg String.data h
  simp only [String.data_append, List.append_assoc] at h2
  have h3 := List.append_cancel_left (List.append_cancel_left (List.append_cancel_left h2))
  have h4 := List.append_cancel_right h3
  exact String.ext h4

/-- C8: after a successful `setNote` for address `A`, a `getNote` for `A` responds with status
200 and a record whose `addr` is `A` and which holds every supplied field with its validated
value. -/
theorem setNote_getNote_round_trip (ds : Datastore) (body body2 : JsObj) (addr : JsVal)
    (hset : (setNote ds body).completion = .resolved)
    (haddr : getAddr body = .ok addr) (haddr2 : getAddr body2 = .ok addr) :
    ∃ record,
      getNote (ds.after (setNote ds body)) body2 =
        ⟨(setNote ds body).entities, [⟨200, .note record⟩], .resolved⟩ ∧
      record.get "addr" = addr ∧
      (∀ c, getCost body = .ok (some c) → record.get "cost" = .num c) ∧
      (∀ v, getValue body = .ok (some v) → record.get "value" = .num v) ∧
      (body.get "costUnit" ≠ .undefined → record.get "costUnit" = body.get "costUnit") ∧
      (body.get "status" ≠ .undefined → record.get "status" = body.get "status") ∧
      (body.get "valueUnit" ≠ .undefined → record.get "valueUnit" = body.get "valueUnit") := by
  obtain ⟨params, addr1, hp, hg, hs, hrun⟩ := setNote_resolved ds body hset
  obtain ⟨c, v, hc, hv, ha, hparams⟩ := setNoteParams_ok body params addr1 hp
  have hadd : addr1 = addr := by
    rw [ha] at haddr
    injection haddr
  subst hadd
  refine ⟨(mergeDefined params
    ((ds.entities.lookup (noteKey addr1)).getD [])).set "addr" addr1, ?_, ?_, ?_, ?_, ?_, ?_, ?_⟩
  · rw [hrun]
    simp [getNote, haddr2, Datastore.after, hg, Entities.lookup_upsert_self]
  · simp [JsObj.get_set]
  · intro c1 hc1
    rw [hc] at hc1
    injection hc1 with hc1
    subst hc1
    rw [JsObj.get_set, mergeDefined_get, hparams]
    simp [JsObj.get, JsObj.keys, optNum, JsVal.isUndefined]
  · intro v1 hv1
    rw [hv] at hv1
    injection hv1 with hv1
    subst hv1
    rw [JsObj.get_set, mergeDefined_get, hparams]
    simp [JsObj.get, JsObj.keys, optNum, JsVal.isUndefined]
  · intro hd
    rw [JsObj.get_set, mergeDefined_get, hparams]
    simp [JsObj.get, JsObj.keys, isUndefined_eq_false_of_ne _ hd]
  · intro hd
    rw [JsObj.get_set, mergeDefined_get, hparams]
    simp [JsObj.get, JsObj.keys, isUndefined_eq_false_of_ne _ hd]
  · intro hd
    rw [JsObj.get_set, mergeDefined_get, hparams]
    simp [JsObj.get, JsObj.keys, isUndefined_eq_false_of_ne _ hd]

theorem setNote_getNote_round_trip_witness :
    ((setNote emptyDatastore
        [("addr", .str sampleAddr), ("cost", .num (.int 5)), ("costUnit", .str "USD")]).completion
        = .resolved ∧
      getCost [("addr", .str sampleAddr), ("cost", .num (.int 5)), ("costUnit", .str "USD")] =
        .ok (some (.int 5))) ∧
    ∃ record,
      getNote (emptyDatastore.after (setNote emptyDatastore
          [("addr", .str sampleAddr), ("cost", .num (.int 5)), ("costUnit", .str "USD")]))
          [("addr", .str sampleAddr)] =
        ⟨(setNote emptyDatastore
          [("addr", .str sampleAddr), ("cost", .num (.int 5)), ("costUnit", .str "USD")]).entities,
          [⟨200, .note record⟩], .resolved⟩ ∧
      record.get "addr" = .str sampleAddr ∧
      record.get "cost" = .num (.int 5) ∧
      record.get "costUnit" = .str "USD" :=
  ⟨⟨rfl, rfl⟩,
    (setNote_getNote_round_trip emptyDatastore
      [("addr", .str sampleAddr), ("cost", .num (.int 5)), ("costUnit", .str "USD")]
      [("addr", .str sampleAddr)] (.str sampleAddr) rfl rfl rfl).imp
      fun _ h => ⟨h.1, h.2.1, h.2.2.1 _ rfl, h.2.2.2.2.1 (by simp [JsObj.get])⟩⟩

theorem params_get_isUndefined (body : JsObj) (c v : Option JsNum)
    (hc : c.isSome = !(body.get "cost").isUndefined)
    (hv : v.isSome = !(body.get "value").isUndefined) (k : String) (hk : k ∈ noteFields) :
    (JsObj.get [("cost", optNum c), ("costUnit", body.get "costUnit"),
      ("status", body.get "status"), ("value", optNum v),
      ("valueUnit", body.get "valueUnit")] k).isUndefined = (body.get k).isUndefined := by
  simp only [noteFields, List.mem_cons, List.mem_singleton, List.not_mem_nil, or_false] at hk
  rcases hk with h | h | h | h | h <;> subst h <;>
    simp [JsObj.get, JsObj.keys, optNum_isUndefined, hc, hv]

/-- C9: for a request that passes validation, against a datastore whose `get` and `save`
succeed, `setNote` responds with status 200 and action `created` exactly when no record was
stored under the key of the address, and `updated` otherwise; the record saved under that
key holds the validated value of every supplied field and, for every other field, the value
previously stored (none when there was no record). -/
theorem setNote_created_or_updated (ds : Datastore) (body params : JsObj) (addr : JsVal)
    (hvalid : setNoteParams body = .ok (params, addr))
    (hget : ds.getError = none) (hsave : ds.saveError = none) :
    (setNote ds body).completion = .resolved ∧
    ((setNote ds body).sent = [⟨200, .text (actionText addr "created")⟩] ↔
      ds.entities.lookup (noteKey addr) = none) ∧
    ((setNote ds body).sent = [⟨200, .text (actionText addr "updated")⟩] ↔
      ds.entities.lookup (noteKey addr) ≠ none) ∧
    ∃ saved, (setNote ds body).entities.lookup (noteKey addr) = some saved ∧
      (∀ c, getCost body = .ok (some c) → saved.get "cost" = .num c) ∧
      (∀ v, getValue body = .ok (some v) → saved.get "value" = .num v) ∧
      (∀ k ∈ ["costUnit", "status", "valueUnit"], body.get k ≠ .undefined →
        saved.get k = body.get k) ∧
      (∀ k, k ∉ noteFields ∨ body.get k = .undefined →
        saved.get k = ((ds.entities.lookup (noteKey addr)).getD []).get k) := by
  obtain ⟨c, v, hc, hv, ha, hparams⟩ := setNoteParams_ok body params addr hvalid
  have hrun : setNote ds body =
      ⟨ds.entities.upsert (noteKey addr)
          (mergeDefined params ((ds.entities.lookup (noteKey addr)).getD [])),
        [⟨200, .text (actionText addr
          (if (ds.entities.lookup (noteKey addr)).isNone then "created" else "updated"))⟩],
        .resolved⟩ := by
    simp [setNote, hvalid, hget, hsave, copyDefinedProperties_params body params addr hvalid]
  have hci := getCost_isSome body c hc
  have hvi := getValue_isSome body v hv
  rw [hrun]
  refine ⟨rfl, ?_, ?_, _, Entities.lookup_upsert_self _ _ _, ?_, ?_, ?_, ?_⟩
  · cases hl : ds.entities.lookup (noteKey addr) with
    | none => simp
    | some r =>
      simp only [Option.isNone_some, Bool.false_eq_true, if_false, List.cons.injEq,
        Response.mk.injEq, Payload.text.injEq, true_and, and_true, reduceCtorEq, iff_false]
      intro h
      exact absurd (actionText_injective addr _ _ h) (by decide)
  · cases hl : ds.entities.lookup (noteKey addr) with
    | none =>
      simp only [Option.isNone_none, if_true, List.cons.injEq, Response.mk.injEq,
        Payload.text.injEq, true_and, and_true, ne_eq, not_true_eq_false, iff_false]
      intro h
      exact absurd (actionText_injective addr _ _ h) (by decide)
    | some r => simp
  · intro c1 hc1
    rw [hc] at hc1
    injection hc1 with hc1
    subst hc1
    rw [mergeDefined_get, hparams]
    simp [JsObj.get, JsObj.keys, optNum, JsVal.isUndefined]
  · intro v1 hv1
    rw [hv] at hv1
    injection hv1 with hv1
    subst hv1
    rw [mergeDefined_get, hparams]
    simp [JsObj.get, JsObj.keys, optNum, JsVal.isUndefined]
  · intro k hk hd
    rw [mergeDefined_get, hparams]
    have hu := isUndefined_eq_false_of_ne _ hd
    simp only [List.mem_cons, List.mem_singleton, List.not_mem_nil, or_false] at hk
    rcases hk with h | h | h <;> subst h <;> simp [JsObj.get, JsObj.keys, hu]
  · intro k hk
    rw [mergeDefined_get, hparams, if_neg]
    rintro ⟨hmem, hdef⟩
    have hm : k ∈ noteFields := hmem
    rcases hk with hk | hk
    · exact hk hm
    · rw [params_get_isUndefined body c v hci hvi k hm, hk] at hdef
      cases hdef

theorem setNote_created_or_updated_witness :
    setNoteParams [("addr", .str sampleAddr), ("status", .str "paid")] =
        .ok ([("cost", .undefined), ("costUnit", .undefined), ("status", .str "paid"),
          ("value", .undefined), ("valueUnit", .undefined)], .str sampleAddr) ∧
      (setNote sampleDatastore [("addr", .str sampleAddr), ("status", .str "paid")]).sent =
        [⟨200, .text (actionText (.str sampleAddr) "updated")⟩] ∧
      ∃ saved,
        (setNote sampleDatastore
          [("addr", .str sampleAddr), ("status", .str "paid")]).entities.lookup
            (noteKey (.str sampleAddr)) = some saved ∧
        saved.get "status" = .str "paid" ∧
        saved.get "cost" = .num (.int 5) ∧
        saved.get "costUnit" = .str "USD" :=
  have h := setNote_created_or_updated sampleDatastore
    [("addr", .str sampleAddr), ("status", .str "paid")]
    [("cost", .undefined), ("costUnit", .undefined), ("status", .str "paid"),
      ("value", .undefined), ("valueUnit", .undefined)] (.str sampleAddr) rfl rfl rfl
  ⟨rfl, h.2.2.1.2 (fun hn => Option.noConfusion hn),
    h.2.2.2.imp fun _ hs =>
      ⟨hs.1, hs.2.2.2.1 "status" (by simp) (by simp [JsObj.get]),
        hs.2.2.2.2 "cost" (Or.inr rfl), hs.2.2.2.2 "costUnit" (Or.inr rfl)⟩⟩

/-- C10: for a request with a valid address `A`, against a datastore whose `delete` succeeds,
`deleteNote` responds with status 200 and the text with `addr` `A` and action `deleted`,
whether or not a record existed; afterwards no record is stored under the key of `A`; and a
second `deleteNote` for `A` gives the same response and leaves the same store. -/
theorem deleteNote_idempotent (ds : Datastore) (body : JsObj) (addr : JsVal)
    (haddr : getAddr body = .ok addr) (hdel : ds.deleteError = none) :
    (deleteNote ds body).sent = [⟨200, .text (actionText addr "deleted")⟩] ∧
    (deleteNote ds body).completion = .resolved ∧
    (deleteNote ds body).entities.lookup (noteKey addr) = none ∧
    (deleteNote (ds.after (deleteNote ds body)) body).sent = (deleteNote ds body).sent ∧
    (deleteNote (ds.after (deleteNote ds body)) body).completion = .resolved ∧
    (deleteNote (ds.after (deleteNote ds body)) body).entities =
      (deleteNote ds body).entities := by
  have hrun : deleteNote ds body =
      ⟨ds.entities.remove (noteKey addr), [⟨200, .text (actionText addr "deleted")⟩],
        .resolved⟩ := by
    simp [deleteNote, haddr, hdel]
  have hrun2 : deleteNote (ds.after (deleteNote ds body)) body =
      ⟨(ds.entities.remove (noteKey addr)).remove (noteKey addr),
        [⟨200, .text (actionText addr "deleted")⟩], .resolved⟩ := by
    rw [hrun]
    simp [deleteNote, haddr, hdel, Datastore.after]
  rw [hrun2, hrun]
  exact ⟨rfl, rfl, Entities.lookup_remove_self _ _, rfl, rfl, Entities.remove_remove _ _⟩

theorem deleteNote_idempotent_witness :
    (deleteNote sampleDatastore [("addr", .str sampleAddr)]).sent =
        [⟨200, .text "\x7b\"addr\":\"1BvBMSEYstWetqTFn5Au4m4GFg7xJaNVN2\",\"action\":\"deleted\"\x7d"⟩] ∧
      (deleteNote sampleDatastore [("addr", .str sampleAddr)]).entities = [] ∧
      (deleteNote emptyDatastore [("addr", .str sampleAddr)]).sent =
        [⟨200, .text (actionText (.str sampleAddr) "deleted")⟩] :=
  ⟨(deleteNote_idempotent sampleDatastore [("addr", .str sampleAddr)] (.str sampleAddr)
      rfl rfl).1,
    rfl,
    (deleteNote_idempotent emptyDatastore [("addr", .str sampleAddr)] (.str sampleAddr)
      rfl rfl).1⟩

/-! ## Reading, listing and failures -/

/-- C11: for a request with a valid address `A`, against a datastore whose `get` succeeds: when
no record is stored under the key of `A`, `getNote` sends status 500 with the not-found
message naming `A`, rejects with the error carrying that message, and leaves the store
unchanged; when a record is stored, it sends status 200 with that record and `addr` set to
`A`. -/
theorem getNote_found_or_not_found (ds : Datastore) (body : JsObj) (addr : JsVal)
    (haddr : getAddr body = .ok addr) (hget : ds.getError = none) :
    (ds.entities.lookup (noteKey addr) = none →
      getNote ds body =
        ⟨ds.entities,
          [⟨500, .text ("There are no notes with the address " ++ addr.toStr ++ ".")⟩],
          .rejected (.err (.error
            ("There are no notes with the address " ++ addr.toStr ++ ".")))⟩) ∧
    (∀ note, ds.entities.lookup (noteKey addr) = some note →
      getNote ds body = ⟨ds.entities, [⟨200, .note (note.set "addr" addr)⟩], .resolved⟩ ∧
      (note.set "addr" addr).get "addr" = addr ∧
      ∀ k, k ≠ "addr" → (note.set "addr" addr).get k = note.get k) := by
  constructor
  · intro hnone
    simp [getNote, haddr, hget, hnone, notFoundMessage, JsError.message]
  · intro note hsome
    refine ⟨by simp [getNote, haddr, hget, hsome], by simp [JsObj.get_set], ?_⟩
    intro k hk
    have hk2 : ¬ "addr" = k := fun h => hk h.symm
    simp [JsObj.get_set, hk2]

theorem getNote_found_or_not_found_witness :
    getNote emptyDatastore [("addr", .str sampleAddr)] =
        ⟨[], [⟨500, .text
          "There are no notes with the address 1BvBMSEYstWetqTFn5Au4m4GFg7xJaNVN2."⟩],
          .rejected (.err (.error
            "There are no notes with the address 1BvBMSEYstWetqTFn5Au4m4GFg7xJaNVN2."))⟩ ∧
      getNote sampleDatastore [("addr", .str sampleAddr)] =
        ⟨sampleDatastore.entities,
          [⟨200, .note [("cost", .num (.int 5)), ("costUnit", .str "USD"),
            ("addr", .str sampleAddr)]⟩], .resolved⟩ :=
  ⟨(getNote_found_or_not_found emptyDatastore [("addr", .str sampleAddr)] (.str sampleAddr)
      rfl rfl).1 rfl,
    ((getNote_found_or_not_found sampleDatastore [("addr", .str sampleAddr)] (.str sampleAddr)
      rfl rfl).2 [("cost", .num (.int 5)), ("costUnit", .str "USD")] rfl).1⟩

theorem JsObj.get_set_of_ne (o : JsObj) (k : String) (v : JsVal) (name : String)
    (h : k ≠ name) : (o.set k v).get name = o.get name := by
  rw [JsObj.get_set, if_neg h]

mutual
theorem JsVal.eq_of_beq : ∀ (a b : JsVal), JsVal.beq a b = true → a = b
  | .undefined, b, h => by cases b <;> simp_all [JsVal.beq]
  | .null, b, h => by cases b <;> simp_all [JsVal.beq]
  | .bool a, b, h => by cases b <;> simp_all [JsVal.beq]
  | .num a, b, h => by cases b <;> simp_all [JsVal.beq]
  | .str a, b, h => by cases b <;> simp_all [JsVal.beq]
  | .arr xs, b, h => by
    cases b <;> simp [JsVal.beq] at h
    rw [JsVal.eqList_of_beqList _ _ h]
theorem JsVal.eqList_of_beqList :
    ∀ (xs ys : List JsVal), JsVal.beqList xs ys = true → xs = ys
  | [], ys, h => by cases ys <;> simp_all [JsVal.beqList]
  | x :: xs, ys, h => by
    cases ys with
    | nil => simp [JsVal.beqList] at h
    | cons y ys =>
      simp [JsVal.beqList] at h
      rw [JsVal.eq_of_beq x y h.1, JsVal.eqList_of_beqList xs ys h.2]
end

theorem Key.eq_of_beq_key (a b : Key) (h : Key.beq a b = true) : a = b := by
  obtain ⟨ka, na⟩ := a
  obtain ⟨kb, nb⟩ := b
  simp only [Key.beq, Bool.and_eq_true, decide_eq_true_eq] at h
  rw [h.1, JsVal.eq_of_beq na nb h.2]

theorem Key.beq_eq_false_comm (a b : Key) (h : Key.beq a b = false) : Key.beq b a = false := by
  cases hb : Key.beq b a
  · rfl
  · have he := Key.eq_of_beq_key b a hb
    rw [he, Key.beq_same] at h
    cases h

theorem Entities.mem_remove_iff (e : Entities) (key : Key) (k : Key) (r : JsObj) :
    (k, r) ∈ e.remove key ↔ (k, r) ∈ e ∧ Key.beq k key = false := by
  induction e with
  | nil => simp [Entities.remove]
  | cons p rest ih =>
    obtain ⟨k1, r1⟩ := p
    by_cases hb : Key.beq k1 key = true
    · simp only [Entities.remove, hb, if_true, ih, List.mem_cons, Prod.mk.injEq]
      constructor
      · rintro ⟨h1, h2⟩
        exact ⟨Or.inr h1, h2⟩
      · rintro ⟨h1 | h1, h2⟩
        · rw [h1.1, hb] at h2
          cases h2
        · exact ⟨h1, h2⟩
    · have hb2 : Key.beq k1 key = false := by simpa using hb
      simp only [Entities.remove, hb2, Bool.false_eq_true, if_false, List.mem_cons,
        Prod.mk.injEq, ih]
      constructor
      · rintro (⟨h1, h2⟩ | ⟨h1, h2⟩)
        · exact ⟨Or.inl ⟨h1, h2⟩, by rw [h1]; exact hb2⟩
        · exact ⟨Or.inr h1, h2⟩
      · rintro ⟨h1 | h1, h2⟩
        · exact Or.inl h1
        · exact Or.inr ⟨h1, h2⟩

theorem Entities.mem_visible_iff (e : Entities) (k : Key) (r : JsObj) :
    (k, r) ∈ e.visible ↔ e.lookup k = some r := by
  induction e with
  | nil => simp [Entities.visible, Entities.lookup]
  | cons p rest ih =>
    obtain ⟨k1, r1⟩ := p
    simp only [Entities.visible, List.mem_cons, Prod.mk.injEq, Entities.mem_remove_iff, ih,
      Entities.lookup]
    by_cases hb : Key.beq k1 k = true
    · have he := Key.eq_of_beq_key k1 k hb
      subst he
      simp only [hb, if_true, Option.some.injEq, true_and, Key.beq_same, Bool.true_eq_false,
        and_false, or_false]
      exact eq_comm
    · have hb2 : Key.beq k1 k = false := by simpa using hb
      have hb3 : Key.beq k k1 = false := Key.beq_eq_false_comm k1 k hb2
      have hne : ¬ k = k1 := by
        intro h
        rw [h, Key.beq_same] at hb2
        cases hb2
      simp [hb2, hb3, hne]

theorem mem_insertOrdered (le : JsVal → JsVal → Bool) (property : String)
    (x z : Key × JsObj) (l : List (Key × JsObj)) :
    z ∈ insertOrdered le property x l ↔ z = x ∨ z ∈ l := by
  induction l with
  | nil => simp [insertOrdered]
  | cons y ys ih =>
    unfold insertOrdered
    split
    · simp
    · simp only [List.mem_cons, ih]
      tauto

theorem mem_sortByProperty (le : JsVal → JsVal → Bool) (property : String)
    (z : Key × JsObj) (l : List (Key × JsObj)) :
    z ∈ sortByProperty le property l ↔ z ∈ l := by
  induction l with
  | nil => simp [sortByProperty]
  | cons x xs ih => simp [sortByProperty, mem_insertOrdered, ih]

theorem pairwise_insertOrdered (le : JsVal → JsVal → Bool) (property : String)
    (htotal : ∀ a b, le a b = true ∨ le b a = true)
    (htrans : ∀ a b c, le a b = true → le b c = true → le a c = true)
    (x : Key × JsObj) (l : List (Key × JsObj))
    (hl : l.Pairwise fun a b => le (a.2.get property) (b.2.get property) = true) :
    (insertOrdered le property x l).Pairwise
      fun a b => le (a.2.get property) (b.2.get property) = true := by
  induction l with
  | nil => simp [insertOrdered]
  | cons y ys ih =>
    rw [List.pairwise_cons] at hl
    unfold insertOrdered
    by_cases hxy : le (x.2.get property) (y.2.get property) = true
    · rw [if_pos hxy, List.pairwise_cons]
      refine ⟨?_, List.pairwise_cons.2 hl⟩
      intro z hz
      rcases List.mem_cons.1 hz with h | h
      · rw [h]; exact hxy
      · exact htrans _ _ _ hxy (hl.1 z h)
    · rw [if_neg hxy, List.pairwise_cons]
      refine ⟨?_, ih hl.2⟩
      intro z hz
      rcases (mem_insertOrdered le property x z ys).1 hz with h | h
      · rw [h]
        rcases htotal (x.2.get property) (y.2.get property) with h1 | h1
        · exact absurd h1 hxy
        · exact h1
      · exact hl.1 z h

theorem pairwise_sortByProperty (le : JsVal → JsVal → Bool) (property : String)
    (htotal : ∀ a b, le a b = true ∨ le b a = true)
    (htrans : ∀ a b c, le a b = true → le b c = true → le a c = true)
    (l : List (Key × JsObj)) :
    (sortByProperty le property l).Pairwise
      fun a b => le (a.2.get property) (b.2.get property) = true := by
  induction l with
  | nil => simp [sortByProperty]
  | cons x xs ih => exact pairwise_insertOrdered le property htotal htrans x _ ih

theorem runQuery_notes (le : JsVal → JsVal → Bool) (entities : Entities) :
    runQuery le entities ((createQuery "Note").order "value" false) =
      sortByProperty le "value"
        (entities.visible.filter fun kr => decide (kr.1.kind = "Note")) := by
  simp [runQuery, createQuery, Query.order]

theorem sampleOrder_total (a b : JsVal) : sampleOrder a b = true ∨ sampleOrder b a = true := by
  unfold sampleOrder
  cases a.intOf <;> cases b.intOf <;> simp
  exact Int.le_total _ _

theorem sampleOrder_trans (a b c : JsVal) (hab : sampleOrder a b = true)
    (hbc : sampleOrder b c = true) : sampleOrder a c = true := by
  unfold sampleOrder at *
  cases ha : a.intOf <;> cases hb : b.intOf <;> cases hc : c.intOf <;>
    simp_all
  exact Int.le_trans hab hbc

/-- C12: against a datastore whose query succeeds, and for every total and transitive ordering
of property values that the datastore uses, `listNotes` sends status 200 with a list in
non-decreasing order of `value`; the list has the length and the order of the result of the
query on kind `Note` ordered by `value` ascending, each element being the record of the result
with `addr` set to the name of its own key; and the records of the result are exactly the
records stored under keys of kind `Note`. -/
theorem listNotes_sorted_by_value (le : JsVal → JsVal → Bool) (ds : Datastore)
    (hquery : ds.queryError = none)
    (htotal : ∀ a b, le a b = true ∨ le b a = true)
    (htrans : ∀ a b c, le a b = true → le b c = true → le a c = true) :
    ∃ notes : List JsObj,
      listNotes le ds = ⟨ds.entities, [⟨200, .notes notes⟩], .resolved⟩ ∧
      notes.Pairwise (fun a b => le (a.get "value") (b.get "value") = true) ∧
      notes = (runQuery le ds.entities ((createQuery "Note").order "value" false)).map
        (fun kr => kr.2.set "addr" kr.1.nameProp) ∧
      notes.length =
        (runQuery le ds.entities ((createQuery "Note").order "value" false)).length ∧
      (∀ key record,
        (key, record) ∈ runQuery le ds.entities ((createQuery "Note").order "value" false) ↔
          key.kind = "Note" ∧ ds.entities.lookup key = some record) := by
  refine ⟨_, by simp [listNotes, hquery], ?_, rfl, by simp, ?_⟩
  · rw [runQuery_notes, List.pairwise_map]
    refine (pairwise_sortByProperty le "value" htotal htrans _).imp ?_
    intro a b hab
    rw [JsObj.get_set_of_ne _ _ _ _ (by decide), JsObj.get_set_of_ne _ _ _ _ (by decide)]
    exact hab
  · intro key record
    rw [runQuery_notes, mem_sortByProperty, List.mem_filter, Entities.mem_visible_iff]
    simp only [decide_eq_true_eq]
    exact and_comm

theorem listNotes_sorted_by_value_witness :
    ∃ notes : List JsObj,
      listNotes sampleOrder sampleNotesDatastore =
        ⟨sampleNotesDatastore.entities, [⟨200, .notes notes⟩], .resolved⟩ ∧
      notes.Pairwise (fun a b => sampleOrder (a.get "value") (b.get "value") = true) ∧
      notes =
        [[("value", .num (.int 1)), ("addr", .str "1BvBMSEYstWetqTFn5Au4m4GFg7xJaNVN2")],
          [("value", .num (.int 2)), ("addr", .str "3J98t1WpEZ73CNmQviecrnyiWrnqRhWNLy")]] :=
  (listNotes_sorted_by_value sampleOrder sampleNotesDatastore rfl sampleOrder_total
    sampleOrder_trans).imp fun _ h => ⟨h.1, h.2.1, h.2.2.1.trans rfl⟩

theorem handlers_validation_failure (ds : Datastore) (body : JsObj) (e : JsError) :
    (setNoteParams body = .error e → setNote ds body = ⟨ds.entities, [], .threw e⟩) ∧
    (getAddr body = .error e → getNote ds body = ⟨ds.entities, [], .threw e⟩) ∧
    (getAddr body = .error e → deleteNote ds body = ⟨ds.entities, [], .threw e⟩) := by
  refine ⟨setNote_of_error ds body e, ?_, ?_⟩
  · intro h
    simp [getNote, h]
  · intro h
    simp [deleteNote, h]

/-- C13: for the request with an empty body, whose validation fails on the missing address,
`setNote`, `getNote` and `deleteNote` throw the validation error and leave the store unchanged,
but send no response at all: no status 500 with the message reaches the response object. -/
theorem handlers_send_nothing_on_invalid_request :
    setNote sampleDatastore [] =
        ⟨sampleDatastore.entities, [], .threw (.error (missingMessage "address" "addr"))⟩ ∧
      getNote sampleDatastore [] =
        ⟨sampleDatastore.entities, [], .threw (.error (missingMessage "address" "addr"))⟩ ∧
      deleteNote sampleDatastore [] =
        ⟨sampleDatastore.entities, [], .threw (.error (missingMessage "address" "addr"))⟩ := by
  exact ⟨rfl, rfl, rfl⟩

/-! ## Null status, `getParam` and the merger -/

theorem getIntParam_error (body : JsObj) (name : String) (options : Options) (e : JsError)
    (h : getIntParam body name options = .error e) :
    (e = .error (missingMessage (options.displayName name) name) ∧ options.mandatory = true) ∨
      e = .error (nullMessage (options.displayName name)) ∨ e = .typeError ∨
      ∃ a b, e = .error (notIntegerMessage name a b) := by
  unfold getIntParam at h
  cases hp : getParam body name options with
  | error e1 =>
    rw [hp] at h
    injection h with h
    subst h
    rcases getParam_error _ _ _ _ hp with h1 | h1
    · exact Or.inl ⟨h1.1, h1.2.2⟩
    · exact Or.inr (Or.inl h1.1)
  | ok value =>
    rw [hp] at h
    simp only at h
    split at h
    · cases h
    · cases hs : value.toStringMethod with
      | error e2 =>
        rw [hs] at h
        injection h with h
        subst h
        cases value <;> simp [JsVal.toStringMethod] at hs
        · exact Or.inr (Or.inr (Or.inl hs.symm))
        · exact Or.inr (Or.inr (Or.inl hs.symm))
      | ok str =>
        rw [hs] at h
        simp only at h
        split at h
        · injection h with h
          exact Or.inr (Or.inr (Or.inr ⟨_, _, h.symm⟩))
        · cases h

theorem getCost_error (body : JsObj) (e : JsError) (h : getCost body = .error e) :
    e = .error (nullMessage "cost") ∨ e = .typeError ∨
      (∃ a b, e = .error (notIntegerMessage "cost" a b)) ∨
      e = .error (negativeMessage "cost") := by
  unfold getCost at h
  cases hi : getIntParam body "cost" ⟨none, false, true⟩ with
  | error e1 =>
    rw [hi] at h
    injection h with h
    subst h
    rcases getIntParam_error _ _ _ _ hi with h1 | h1 | h1 | h1
    · exact absurd h1.2 (by decide)
    · exact Or.inl h1
    · exact Or.inr (Or.inl h1)
    · exact Or.inr (Or.inr (Or.inl h1))
  | ok r =>
    rw [hi] at h
    cases r with
    | none => cases h
    | some n =>
      simp only at h
      split at h
      · injection h with h
        exact Or.inr (Or.inr (Or.inr h.symm))
      · cases h

theorem getValue_error (body : JsObj) (e : JsError) (h : getValue body = .error e) :
    e = .error (nullMessage "value") ∨ e = .typeError ∨
      (∃ a b, e = .error (notIntegerMessage "value" a b)) ∨
      e = .error (negativeMessage "value") := by
  unfold getValue at h
  cases hi : getIntParam body "value" ⟨none, false, true⟩ with
  | error e1 =>
    rw [hi] at h
    injection h with h
    subst h
    rcases getIntParam_error _ _ _ _ hi with h1 | h1 | h1 | h1
    · exact absurd h1.2 (by decide)
    · exact Or.inl h1
    · exact Or.inr (Or.inl h1)
    · exact Or.inr (Or.inr (Or.inl h1))
  | ok r =>
    rw [hi] at h
    cases r with
    | none => cases h
    | some n =>
      simp only at h
      split at h
      · injection h with h
        exact Or.inr (Or.inr (Or.inr h.symm))
      · cases h

theorem notIntegerMessage_ne_nullMessage_status (name a b : String)
    (hname : name = "cost" ∨ name = "value") :
    JsError.error (notIntegerMessage name a b) ≠ .error (nullMessage "status") := by
  intro h
  injection h with h
  have h2 := congrArg String.data h
  rcases hname with hn | hn <;> subst hn <;>
    simp [notIntegerMessage, nullMessage, String.data_append] at h2

theorem setNoteParams_error_not_null_status (body : JsObj) (e : JsError)
    (h : setNoteParams body = .error e) : e ≠ .error (nullMessage "status") := by
  unfold setNoteParams at h
  cases hc : getCost body with
  | error e1 =>
    rw [hc] at h
    injection h with h
    subst h
    rcases getCost_error _ _ hc with h1 | h1 | ⟨a, b, h1⟩ | h1
    · rw [h1]; decide
    · rw [h1]; decide
    · rw [h1]; exact notIntegerMessage_ne_nullMessage_status _ _ _ (Or.inl rfl)
    · rw [h1]; decide
  | ok c =>
    rw [hc] at h
    simp only at h
    cases hv : getValue body with
    | error e1 =>
      rw [hv] at h
      injection h with h
      subst h
      rcases getValue_error _ _ hv with h1 | h1 | ⟨a, b, h1⟩ | h1
      · rw [h1]; decide
      · rw [h1]; decide
      · rw [h1]; exact notIntegerMessage_ne_nullMessage_status _ _ _ (Or.inr rfl)
      · rw [h1]; decide
    | ok v =>
      rw [hv] at h
      simp only at h
      cases hcu : getParam body "costUnit" ⟨none, c.isSome, true⟩ with
      | error e1 =>
        rw [hcu] at h
        injection h with h
        subst h
        rcases getParam_error _ _ _ _ hcu with h1 | h1
        · rw [show e1 = JsError.error (missingMessage "costUnit" "costUnit") from h1.1]
          decide
        · rw [show e1 = JsError.error (nullMessage "costUnit") from h1.1]
          decide
      | ok cu =>
        rw [hcu, getParam_empty] at h
        simp only at h
        cases hvu : getParam body "valueUnit" ⟨none, v.isSome, true⟩ with
        | error e1 =>
          rw [hvu] at h
          injection h with h
          subst h
          rcases getParam_error _ _ _ _ hvu with h1 | h1
          · rw [show e1 = JsError.error (missingMessage "valueUnit" "valueUnit") from h1.1]
            decide
          · rw [show e1 = JsError.error (nullMessage "valueUnit") from h1.1]
            decide
        | ok vu =>
          rw [hvu] at h
          simp only at h
          cases ha : getAddr body with
          | error e1 =>
            rw [ha] at h
            injection h with h
            subst h
            rcases getAddr_error _ _ ha with h1 | h1 | h1 | h1 <;> rw [h1] <;> decide
          | ok addr => rw [ha] at h; cases h

/-- C14, as stated, fails: the request with a valid address and `status` supplied as `null`
passes validation, and `setNote` stores a record whose `status` is `null`. -/
theorem setNote_accepts_null_status :
    JsObj.get [("addr", .str sampleAddr), ("status", .null)] "status" = .null ∧
      setNote emptyDatastore [("addr", .str sampleAddr), ("status", .null)] =
        ⟨[(noteKey (.str sampleAddr), [("status", .null)])],
          [⟨200, .text (actionText (.str sampleAddr) "created")⟩], .resolved⟩ := by
  exact ⟨rfl, rfl⟩

/-- C14, amended: `status` is optional and unconstrained, `null` included: the `status` step of
`setNote` returns the supplied value for every request; a request whose `status` is `null`
never fails with the null-field error for `status`, and when it passes validation and the
storage calls succeed the saved record has `status` `null`. -/
theorem setNote_status_unconstrained (ds : Datastore) (body : JsObj) :
    getParam body "status" Options.empty = .ok (body.get "status") ∧
    (body.get "status" = .null →
      (setNote ds body).completion ≠ .threw (.error (nullMessage "status")) ∧
      ∀ params addr, setNoteParams body = .ok (params, addr) →
        ds.getError = none → ds.saveError = none →
        ∃ saved, (setNote ds body).entities.lookup (noteKey addr) = some saved ∧
          saved.get "status" = .null) := by
  refine ⟨getParam_empty body "status", ?_⟩
  intro hnull
  constructor
  · intro hthrew
    exact setNoteParams_error_not_null_status body _ (setNote_threw ds body _ hthrew) rfl
  · intro params addr hvalid hget hsave
    obtain ⟨c, v, hc, hv, ha, hparams⟩ := setNoteParams_ok body params addr hvalid
    refine ⟨mergeDefined params ((ds.entities.lookup (noteKey addr)).getD []), ?_, ?_⟩
    · simp [setNote, hvalid, hget, hsave, Entities.lookup_upsert_self,
        copyDefinedProperties_params body params addr hvalid]
    · rw [mergeDefined_get, hparams]
      simp [JsObj.get, JsObj.keys, hnull, JsVal.isUndefined]

theorem setNote_status_unconstrained_witness :
    (setNote emptyDatastore [("addr", .str sampleAddr), ("status", .null)]).completion ≠
        .threw (.error (nullMessage "status")) ∧
      ∃ saved,
        (setNote emptyDatastore [("addr", .str sampleAddr), ("status", .null)]).entities.lookup
          (noteKey (.str sampleAddr)) = some saved ∧
        saved.get "status" = .null :=
  have h := (setNote_status_unconstrained emptyDatastore
    [("addr", .str sampleAddr), ("status", .null)]).2 rfl
  ⟨h.1, h.2 _ _ rfl rfl rfl⟩

theorem missingMessage_ne_nullMessage (niceName paramName : String) :
    missingMessage niceName paramName ≠ nullMessage niceName := by
  intro h
  have h2 := congrArg String.data h
  simp [missingMessage, nullMessage, String.data_append] at h2

/-- C15: `getParam` fails with the missing-field error exactly when the field is `undefined`
and `mandatory` is set, fails with the null-field error exactly when the field is `null` and
`notNull` is set, returns `undefined` when the field is `undefined` and `mandatory` is not
set, and in every remaining case returns the raw field value. -/
theorem getParam_cases (body : JsObj) (paramName : String) (options : Options) :
    (getParam body paramName options =
        .error (.error (missingMessage (options.displayName paramName) paramName)) ↔
      body.get paramName = .undefined ∧ options.mandatory = true) ∧
    (getParam body paramName options =
        .error (.error (nullMessage (options.displayName paramName))) ↔
      body.get paramName = .null ∧ options.notNull = true) ∧
    (body.get paramName = .undefined ∧ options.mandatory = false →
      getParam body paramName options = .ok .undefined) ∧
    (body.get paramName ≠ .undefined ∧ ¬ (body.get paramName = .null ∧ options.notNull = true) →
      getParam body paramName options = .ok (body.get paramName)) := by
  refine ⟨⟨?_, ?_⟩, ⟨?_, ?_⟩, ?_, ?_⟩
  · intro h
    rcases getParam_error _ _ _ _ h with h1 | h1
    · exact h1.2
    · have h2 := h1.1
      injection h2 with h2
      exact absurd h2 (missingMessage_ne_nullMessage _ _)
  · intro h
    exact getParam_missing body paramName options h.1 h.2
  · intro h
    rcases getParam_error _ _ _ _ h with h1 | h1
    · have h2 := h1.1
      injection h2 with h2
      exact absurd h2.symm (missingMessage_ne_nullMessage _ _)
    · exact h1.2
  · intro h
    simp [getParam, h.1, h.2, JsVal.isUndefined, JsVal.isNull]
  · intro h
    exact getParam_undefined body paramName options h.1 h.2
  · intro h
    have hu : (body.get paramName).isUndefined = false := isUndefined_eq_false_of_ne _ h.1
    by_cases hn : body.get paramName = .null
    · have hnn : options.notNull = false := by
        cases hopt : options.notNull
        · rfl
        · exact absurd ⟨hn, hopt⟩ h.2
      simp [getParam, hu, hnn]
    · have hn2 : (body.get paramName).isNull = false := by
        cases hb : (body.get paramName).isNull
        · rfl
        · exact absurd ((JsVal.isNull_iff _).1 hb) hn
      simp [getParam, hu, hn2]

theorem getParam_cases_witness :
    getParam [("status", .str "paid")] "status" ⟨some "state", true, true⟩ =
        .ok (.str "paid") ∧
      getParam [] "costUnit" ⟨none, false, true⟩ = .ok .undefined :=
  ⟨(getParam_cases [("status", .str "paid")] "status" ⟨some "state", true, true⟩).2.2.2
      ⟨by simp [JsObj.get], by simp [JsObj.get]⟩,
    (getParam_cases [] "costUnit" ⟨none, false, true⟩).2.2.1 ⟨rfl, rfl⟩⟩

theorem JsObj.mem_keys_set (o : JsObj) (k : String) (v : JsVal) (name : String) :
    name ∈ (o.set k v).keys ↔ name = k ∨ name ∈ o.keys := by
  induction o with
  | nil => simp [JsObj.set, JsObj.keys]
  | cons p rest ih =>
    obtain ⟨k1, w⟩ := p
    by_cases h1 : k1 = k
    · subst h1
      simp [JsObj.set, JsObj.keys]
    · simp only [JsObj.keys] at ih
      simp only [JsObj.set, h1, if_false, JsObj.keys, List.map_cons, List.mem_cons, ih]
      tauto

theorem mergeLoop_mem_keys (src : JsObj) (keys : List String) (dst : JsObj) (name : String) :
    name ∈ (mergeLoop src keys dst).keys ↔
      name ∈ dst.keys ∨ (name ∈ keys ∧ (src.get name).isUndefined = false) := by
  induction keys generalizing dst with
  | nil => simp [mergeLoop]
  | cons key keys ih =>
    unfold mergeLoop
    by_cases hu : (src.get key).isUndefined = true
    · simp only [hu, Bool.not_true, Bool.false_eq_true, if_false]
      rw [ih]
      by_cases hk : name = key
      · subst hk
        simp [hu]
      · simp [hk]
    · have hu2 : (src.get key).isUndefined = false := by simpa using hu
      simp only [hu2, Bool.not_false, if_true]
      rw [ih, JsObj.mem_keys_set]
      by_cases hk : name = key
      · subst hk
        simp [hu2]
      · simp [hk]

theorem mergeDefined_mem_keys (src dst : JsObj) (name : String) :
    name ∈ (mergeDefined src dst).keys ↔
      name ∈ dst.keys ∨ (name ∈ src.keys ∧ (src.get name).isUndefined = false) :=
  mergeLoop_mem_keys src (src.keys) dst name

theorem mergeDefined_frame (src dst : JsObj) :
    (∀ k, k ∈ src.keys → src.get k ≠ .undefined → (mergeDefined src dst).get k = src.get k) ∧
    (∀ k, k ∉ src.keys ∨ src.get k = .undefined →
      (mergeDefined src dst).get k = dst.get k) ∧
    (∀ k, k ∈ (mergeDefined src dst).keys ↔
      k ∈ dst.keys ∨ (k ∈ src.keys ∧ src.get k ≠ .undefined)) := by
  refine ⟨?_, ?_, ?_⟩
  · intro k hk hd
    rw [mergeDefined_get, if_pos ⟨hk, isUndefined_eq_false_of_ne _ hd⟩]
  · intro k hk
    rw [mergeDefined_get, if_neg]
    rintro ⟨hmem, hdef⟩
    rcases hk with hk | hk
    · exact hk hmem
    · rw [hk] at hdef
      cases hdef
  · intro k
    rw [mergeDefined_mem_keys]
    have hiff : (src.get k).isUndefined = false ↔ src.get k ≠ .undefined := by
      constructor
      · intro h1 h2
        rw [h2] at h1
        cases h1
      · exact isUndefined_eq_false_of_ne _
    rw [hiff]

/-- C16, as stated, fails for two field names.  A source with an own field `hasOwnProperty`
whose value is defined makes `copyDefinedProperties` throw a `TypeError`, the call
`src.hasOwnProperty(key)` reaching that field; and a defined field `__proto__` of the source
is not copied, the assignment reaching the inherited setter: the target has no such field
afterwards. -/
theorem copyDefinedProperties_special_names :
    JsObj.get [("hasOwnProperty", .bool true)] "hasOwnProperty" = .bool true ∧
      copyDefinedProperties [("hasOwnProperty", .bool true)] [] = .error .typeError ∧
      JsObj.get [("__proto__", .str "x")] "__proto__" = .str "x" ∧
      copyDefinedProperties [("__proto__", .str "x")] [] = .ok [] := by
  exact ⟨rfl, rfl, rfl, rfl⟩

/-- C16, amended: for a source `src` with no own field named `hasOwnProperty` or `__proto__`,
`copyDefinedProperties(src, dst)` completes, and afterwards every field of `src` whose value
is defined has that value in `dst`; every field that is absent from `src` or undefined in
`src` has in `dst` the value it had before; and the fields of `dst` are those it had before
together with the defined fields of `src`.  The result is the merge the specification
describes. -/
theorem copyDefinedProperties_frame (src dst : JsObj)
    (hown : "hasOwnProperty" ∉ src.keys) (hproto : "__proto__" ∉ src.keys) :
    ∃ out, copyDefinedProperties src dst = .ok out ∧ out = mergeDefined src dst ∧
      (∀ k, k ∈ src.keys → src.get k ≠ .undefined → out.get k = src.get k) ∧
      (∀ k, k ∉ src.keys ∨ src.get k = .undefined → out.get k = dst.get k) ∧
      (∀ k, k ∈ out.keys ↔ k ∈ dst.keys ∨ (k ∈ src.keys ∧ src.get k ≠ .undefined)) := by
  refine ⟨mergeDefined src dst, copyDefinedProperties_eq_ok src dst hown hproto, rfl, ?_⟩
  exact mergeDefined_frame src dst

theorem copyDefinedProperties_frame_witness :
    ∃ out,
      copyDefinedProperties [("status", .str "paid"), ("cost", .undefined)]
        [("cost", .num (.int 5)), ("costUnit", .str "USD")] = .ok out ∧
      out.get "status" = .str "paid" ∧
      out.get "cost" = JsObj.get [("cost", .num (.int 5)), ("costUnit", .str "USD")] "cost" :=
  (copyDefinedProperties_frame [("status", .str "paid"), ("cost", .undefined)]
    [("cost", .num (.int 5)), ("costUnit", .str "USD")] (by decide) (by decide)).imp
    fun _ h => ⟨h.1, h.2.2.1 "status" (by simp [JsObj.keys]) (by simp [JsObj.get]),
      h.2.2.2.1 "cost" (Or.inr rfl)⟩

/-! ## The stored records over sequences of calls -/

theorem Entities.mem_upsert (e : Entities) (key : Key) (data : JsObj) (k : Key) (r : JsObj)
    (h : (k, r) ∈ e.upsert key data) :
    (k, r) ∈ e ∨ (r = data ∧ (k = key ∨ ∃ r0, (k, r0) ∈ e)) := by
  induction e with
  | nil =>
    simp only [Entities.upsert, List.mem_singleton, Prod.mk.injEq] at h
    exact Or.inr ⟨h.2, Or.inl h.1⟩
  | cons p rest ih =>
    obtain ⟨k1, r1⟩ := p
    by_cases hb : Key.beq k1 key = true
    · simp only [Entities.upsert, hb, if_true, List.mem_cons, Prod.mk.injEq] at h
      rcases h with ⟨hk, hr⟩ | h
      · exact Or.inr ⟨hr, Or.inr ⟨r1, by rw [hk]; exact List.mem_cons_self _ _⟩⟩
      · exact Or.inl (List.mem_cons_of_mem _ h)
    · simp only [Entities.upsert, hb, Bool.false_eq_true, if_false, List.mem_cons,
        Prod.mk.injEq] at h
      rcases h with ⟨hk, hr⟩ | h
      · exact Or.inl (by rw [hk, hr]; exact List.mem_cons_self _ _)
      · rcases ih h with h1 | ⟨h1, h2⟩
        · exact Or.inl (List.mem_cons_of_mem _ h1)
        · refine Or.inr ⟨h1, ?_⟩
          rcases h2 with h2 | ⟨r0, h2⟩
          · exact Or.inl h2
          · exact Or.inr ⟨r0, List.mem_cons_of_mem _ h2⟩

theorem Entities.mem_remove (e : Entities) (key : Key) (k : Key) (r : JsObj)
    (h : (k, r) ∈ e.remove key) : (k, r) ∈ e := by
  induction e with
  | nil => simp [Entities.remove] at h
  | cons p rest ih =>
    obtain ⟨k1, r1⟩ := p
    by_cases hb : Key.beq k1 key = true
    · simp only [Entities.remove, hb, if_true] at h
      exact List.mem_cons_of_mem _ (ih h)
    · simp only [Entities.remove, hb, Bool.false_eq_true, if_false, List.mem_cons,
        Prod.mk.injEq] at h
      rcases h with ⟨hk, hr⟩ | h
      · rw [hk, hr]; exact List.mem_cons_self _ _
      · exact List.mem_cons_of_mem _ (ih h)

theorem Entities.mem_of_lookup (e : Entities) (key : Key) (r : JsObj)
    (h : e.lookup key = some r) : ∃ k, (k, r) ∈ e := by
  induction e with
  | nil => simp [Entities.lookup] at h
  | cons p rest ih =>
    obtain ⟨k1, r1⟩ := p
    by_cases hb : Key.beq k1 key = true
    · simp only [Entities.lookup, hb, if_true, Option.some.injEq] at h
      exact ⟨k1, by rw [h]; exact List.mem_cons_self _ _⟩
    · simp only [Entities.lookup, hb, Bool.false_eq_true, if_false] at h
      obtain ⟨k, hk⟩ := ih h
      exact ⟨k, List.mem_cons_of_mem _ hk⟩

theorem setNote_entities (ds : Datastore) (body : JsObj) :
    (setNote ds body).entities = ds.entities ∨
      ∃ params addr, setNoteParams body = .ok (params, addr) ∧
        (setNote ds body).entities = ds.entities.upsert (noteKey addr)
          (mergeDefined params ((ds.entities.lookup (noteKey addr)).getD [])) := by
  cases hp : setNoteParams body with
  | error e => left; simp [setNote, hp]
  | ok pa =>
    obtain ⟨params, addr⟩ := pa
    cases hg : ds.getError with
    | some err => left; simp [setNote, hp, hg]
    | none =>
      cases hs : ds.saveError with
      | some err =>
        left
        simp [setNote, hp, hg, hs, copyDefinedProperties_params body params addr hp]
      | none =>
        right
        exact ⟨params, addr, rfl, by
          simp [setNote, hp, hg, hs, copyDefinedProperties_params body params addr hp]⟩

theorem getNote_entities (ds : Datastore) (body : JsObj) :
    (getNote ds body).entities = ds.entities := by
  unfold getNote
  cases getAddr body with
  | error e => rfl
  | ok addr =>
    simp only
    cases ds.getError with
    | some err => rfl
    | none =>
      simp only
      cases ds.entities.lookup (noteKey addr) <;> rfl

theorem deleteNote_entities (ds : Datastore) (body : JsObj) :
    (deleteNote ds body).entities = ds.entities ∨
      ∃ addr, (deleteNote ds body).entities = ds.entities.remove (noteKey addr) := by
  unfold deleteNote
  cases getAddr body with
  | error e => left; rfl
  | ok addr =>
    simp only
    cases ds.deleteError with
    | some err => left; rfl
    | none => right; exact ⟨addr, rfl⟩

theorem listNotes_entities (le : JsVal → JsVal → Bool) (ds : Datastore) :
    (listNotes le ds).entities = ds.entities := by
  unfold listNotes
  cases ds.queryError <;> rfl

theorem StoreInvariant.upsert_copy (e : Entities) (hinv : StoreInvariant e)
    (body params : JsObj) (addr : JsVal) (hp : setNoteParams body = .ok (params, addr)) :
    StoreInvariant (e.upsert (noteKey addr)
      (mergeDefined params ((e.lookup (noteKey addr)).getD []))) := by
  intro k r hmem
  rcases Entities.mem_upsert _ _ _ _ _ hmem with h | ⟨hr, hk⟩
  · exact hinv k r h
  · constructor
    · rcases hk with hk | ⟨r0, hk⟩
      · rw [hk]; rfl
      · exact (hinv k r0 hk).1
    · intro f hf
      rw [hr] at hf
      rcases (mergeDefined_mem_keys params _ f).1 hf with h1 | h1
      · cases hl : e.lookup (noteKey addr) with
        | none => rw [hl] at h1; simp [JsObj.keys] at h1
        | some old =>
          rw [hl] at h1
          obtain ⟨k0, hk0⟩ := Entities.mem_of_lookup e _ old hl
          exact (hinv k0 old hk0).2 f h1
      · rw [← setNoteParams_keys body params addr hp]
        exact h1.1

theorem StoreInvariant.preserved_by_call (e : Entities) (hinv : StoreInvariant e) (i : Invocation) :
    StoreInvariant (i.run e).entities := by
  unfold Invocation.run
  cases i.call with
  | setNote body =>
    simp only
    rcases setNote_entities ⟨e, i.getError, i.saveError, i.deleteError, i.queryError⟩ body
      with h | ⟨params, addr, hp, h⟩
    · rw [h]; exact hinv
    · rw [h]; exact StoreInvariant.upsert_copy e hinv body params addr hp
  | getNote body =>
    simp only
    rw [getNote_entities]; exact hinv
  | deleteNote body =>
    simp only
    rcases deleteNote_entities ⟨e, i.getError, i.saveError, i.deleteError, i.queryError⟩ body
      with h | ⟨addr, h⟩
    · rw [h]; exact hinv
    · rw [h]
      intro k r hmem
      exact hinv k r (Entities.mem_remove _ _ _ _ hmem)
  | listNotes le =>
    simp only
    rw [listNotes_entities]; exact hinv

theorem StoreInvariant.preserved_by_calls (calls : List Invocation) (e : Entities)
    (hinv : StoreInvariant e) : StoreInvariant (runAll e calls) := by
  induction calls generalizing e with
  | nil => exact hinv
  | cons i rest ih => exact ih _ (StoreInvariant.preserved_by_call e hinv i)

/-- C17: after every sequence of `setNote`, `getNote`, `deleteNote` and `listNotes` calls from
the empty store, whatever the request bodies and the outcomes of the storage calls, every
stored key has kind `Note`, no stored record has an `addr` field, and every field of a stored
record is one of `cost`, `costUnit`, `status`, `value`, `valueUnit`; a `setNote` that saves a
record saves it under the key named by the address. -/
theorem addr_never_stored (calls : List Invocation) :
    (∀ key record, (key, record) ∈ runAll [] calls →
      key.kind = "Note" ∧ "addr" ∉ record.keys ∧
        ∀ f ∈ record.keys,
          f = "cost" ∨ f = "costUnit" ∨ f = "status" ∨ f = "value" ∨ f = "valueUnit") ∧
    (∀ (ds : Datastore) (body : JsObj), (setNote ds body).entities = ds.entities ∨
      ∃ addr saved, getAddr body = .ok addr ∧
        (setNote ds body).entities = ds.entities.upsert ⟨"Note", addr⟩ saved) := by
  constructor
  · intro key record hmem
    have hinv : StoreInvariant (runAll [] calls) :=
      StoreInvariant.preserved_by_calls calls [] (by intro k r h; cases h)
    obtain ⟨hkind, hfields⟩ := hinv key record hmem
    refine ⟨hkind, ?_, ?_⟩
    · intro haddr
      exact absurd (hfields "addr" haddr) (by decide)
    · intro f hf
      simpa [noteFields] using hfields f hf
  · intro ds body
    rcases setNote_entities ds body with h | ⟨params, addr, hp, h⟩
    · exact Or.inl h
    · obtain ⟨c, v, hc, hv, ha, hparams⟩ := setNoteParams_ok body params addr hp
      exact Or.inr ⟨addr, _, ha, h⟩

theorem addr_never_stored_witness :
    runAll [] sampleCalls =
        [(noteKey (.str sampleAddr), [("cost", .num (.int 7)), ("costUnit", .str "EUR")])] ∧
      "addr" ∉ JsObj.keys [("cost", .num (.int 7)), ("costUnit", .str "EUR")] :=
  ⟨rfl,
    ((addr_never_stored sampleCalls).1 (noteKey (.str sampleAddr))
      [("cost", .num (.int 7)), ("costUnit", .str "EUR")]
      (by
        rw [show runAll [] sampleCalls =
          [(noteKey (.str sampleAddr), [("cost", .num (.int 7)), ("costUnit", .str "EUR")])]
          from rfl]
        exact List.mem_singleton.2 rfl)).2.1⟩

/-! ## Storage failures -/

theorem storage_failure_message (ds : Datastore) (body : JsObj) (addr : JsVal) (err : JsError)
    (haddr : getAddr body = .ok addr) :
    (ds.getError = some err →
      getNote ds body = ⟨ds.entities, [⟨500, .text err.message⟩], .rejected (.err err)⟩) ∧
    (ds.getError = some err → ∀ params, setNoteParams body = .ok (params, addr) →
      setNote ds body = ⟨ds.entities, [⟨500, .text err.message⟩], .rejected (.err err)⟩) ∧
    (ds.deleteError = some err →
      deleteNote ds body = ⟨ds.entities, [⟨500, .err err⟩], .rejected (.text err.message)⟩) := by
  refine ⟨?_, ?_, ?_⟩
  · intro h
    simp [getNote, haddr, h]
  · intro h params hp
    simp [setNote, hp, h]
  · intro h
    simp [deleteNote, haddr, h]

/-- C18: when the storage delete fails with an error whose message is `unavailable`,
`deleteNote` sends status 500 with the error object itself as body, not its message (and
rejects with the message); `listNotes` does the same when the query fails. -/
theorem deleteNote_listNotes_send_error_object :
    deleteNote failingDeleteDatastore [("addr", .str sampleAddr)] =
        ⟨[], [⟨500, .err (.error "unavailable")⟩], .rejected (.text "unavailable")⟩ ∧
      listNotes sampleOrder ⟨[], none, none, none, some (.error "unavailable")⟩ =
        ⟨[], [⟨500, .err (.error "unavailable")⟩], .rejected (.text "unavailable")⟩ := by
  exact ⟨rfl, rfl⟩

theorem handlers_sent_length (ds : Datastore) (body : JsObj)
    (le : JsVal → JsVal → Bool) :
    (getNote ds body).sent.length ≤ 1 ∧ (deleteNote ds body).sent.length ≤ 1 ∧
      (listNotes le ds).sent.length ≤ 1 ∧
      ((setNote ds body).sent.length ≤ 1 ∨
        ((setNote ds body).sent.length = 2 ∧ ds.getError = none ∧ ds.saveError ≠ none)) := by
  refine ⟨?_, ?_, ?_, ?_⟩
  · unfold getNote
    cases getAddr body with
    | error e => simp
    | ok addr =>
      simp only
      cases ds.getError with
      | some err => simp
      | none =>
        simp only
        cases ds.entities.lookup (noteKey addr) <;> simp
  · unfold deleteNote
    cases getAddr body with
    | error e => simp
    | ok addr =>
      simp only
      cases ds.deleteError <;> simp
  · unfold listNotes
    cases ds.queryError <;> simp
  · unfold setNote
    cases setNoteParams body with
    | error e => simp
    | ok pa =>
      simp only
      cases ds.getError with
      | some err => simp
      | none =>
        simp only
        cases copyDefinedProperties pa.1 ((ds.entities.lookup (noteKey pa.2)).getD []) with
        | error err => simp
        | ok data =>
          simp only
          cases ds.saveError with
          | some err => simp
          | none => simp

/-- C19: when the storage read succeeds and the save fails, `setNote` sends two responses:
the handler of the failed save sends status 500 and rejects again, and the outer handler sends
status 500 a second time. -/
theorem setNote_sends_twice_on_save_failure :
    (setNote failingSaveDatastore [("addr", .str sampleAddr)]).sent =
        [⟨500, .text "unavailable"⟩, ⟨500, .text "unavailable"⟩] ∧
      (setNote failingSaveDatastore [("addr", .str sampleAddr)]).sent.length = 2 := by
  exact ⟨rfl, rfl⟩

/-! ## Idempotence of `setNote` -/

theorem JsObj.set_eq_self (o : JsObj) (k : String) (v : JsVal) (hmem : k ∈ o.keys)
    (hget : o.get k = v) : o.set k v = o := by
  induction o with
  | nil => simp [JsObj.keys] at hmem
  | cons p rest ih =>
    obtain ⟨k1, w⟩ := p
    by_cases h1 : k1 = k
    · subst h1
      simp only [JsObj.get, if_true] at hget
      simp [JsObj.set, hget]
    · simp only [JsObj.get, h1, if_false] at hget
      simp only [JsObj.keys, List.map_cons, List.mem_cons] at hmem
      have hmem2 : k ∈ JsObj.keys rest := by
        rcases hmem with h | h
        · exact absurd h.symm h1
        · exact h
      simp [JsObj.set, h1, ih hmem2 hget]

theorem mergeLoop_eq_self (src : JsObj) (keys : List String) (dst : JsObj)
    (h : ∀ k ∈ keys, (src.get k).isUndefined = false → k ∈ dst.keys ∧ dst.get k = src.get k) :
    mergeLoop src keys dst = dst := by
  induction keys with
  | nil => rfl
  | cons key keys ih =>
    unfold mergeLoop
    have ih2 := ih (fun k hk => h k (List.mem_cons_of_mem _ hk))
    by_cases hu : (src.get key).isUndefined = true
    · simp only [hu, Bool.not_true, Bool.false_eq_true, if_false]
      exact ih2
    · have hu2 : (src.get key).isUndefined = false := by simpa using hu
      obtain ⟨hm, hg⟩ := h key (List.mem_cons_self _ _) hu2
      simp only [hu2, Bool.not_false, if_true]
      rw [JsObj.set_eq_self dst key _ hm hg]
      exact ih2

theorem mergeDefined_idempotent (src dst : JsObj) :
    mergeDefined src (mergeDefined src dst) =
      mergeDefined src dst := by
  unfold mergeDefined
  apply mergeLoop_eq_self
  intro k hk hdef
  constructor
  · rw [mergeLoop_mem_keys]
    exact Or.inr ⟨hk, hdef⟩
  · rw [mergeLoop_get, if_pos ⟨hk, hdef⟩]

theorem Entities.upsert_upsert (e : Entities) (key : Key) (data : JsObj) :
    (e.upsert key data).upsert key data = e.upsert key data := by
  induction e with
  | nil => simp [Entities.upsert, Key.beq_same]
  | cons p rest ih =>
    obtain ⟨k1, r1⟩ := p
    by_cases hb : Key.beq k1 key = true
    · simp [Entities.upsert, hb]
    · simp [Entities.upsert, hb, ih]

/-- C20: for a request that passes validation, against a datastore whose `get` and `save`
succeed, a second `setNote` with the same request leaves the store as the first one left it,
and responds with status 200 and action `updated`. -/
theorem setNote_idempotent (ds : Datastore) (body params : JsObj) (addr : JsVal)
    (hvalid : setNoteParams body = .ok (params, addr))
    (hget : ds.getError = none) (hsave : ds.saveError = none) :
    (setNote (ds.after (setNote ds body)) body).entities = (setNote ds body).entities ∧
    (setNote (ds.after (setNote ds body)) body).sent =
      [⟨200, .text (actionText addr "updated")⟩] ∧
    (setNote (ds.after (setNote ds body)) body).completion = .resolved := by
  have hrun : setNote ds body =
      ⟨ds.entities.upsert (noteKey addr)
          (mergeDefined params ((ds.entities.lookup (noteKey addr)).getD [])),
        [⟨200, .text (actionText addr
          (if (ds.entities.lookup (noteKey addr)).isNone then "created" else "updated"))⟩],
        .resolved⟩ := by
    simp [setNote, hvalid, hget, hsave, copyDefinedProperties_params body params addr hvalid]
  rw [hrun]
  simp only [setNote, Datastore.after, hvalid, hget, hsave, Entities.lookup_upsert_self,
    copyDefinedProperties_params body params addr hvalid,
    Option.getD_some, mergeDefined_idempotent, Entities.upsert_upsert,
    Option.isNone_some, Bool.false_eq_true, if_false, and_self]

theorem setNote_idempotent_witness :
    (setNote (sampleDatastore.after (setNote sampleDatastore
        [("addr", .str sampleAddr), ("status", .str "paid")]))
        [("addr", .str sampleAddr), ("status", .str "paid")]).entities =
      (setNote sampleDatastore [("addr", .str sampleAddr), ("status", .str "paid")]).entities ∧
    (setNote (emptyDatastore.after (setNote emptyDatastore
        [("addr", .str sampleAddr), ("status", .str "paid")]))
        [("addr", .str sampleAddr), ("status", .str "paid")]).sent =
      [⟨200, .text (actionText (.str sampleAddr) "updated")⟩] :=
  ⟨(setNote_idempotent sampleDatastore [("addr", .str sampleAddr), ("status", .str "paid")]
      _ (.str sampleAddr) rfl rfl rfl).1,
    (setNote_idempotent emptyDatastore [("addr", .str sampleAddr), ("status", .str "paid")]
      _ (.str sampleAddr) rfl rfl rfl).2.1⟩

end Notes
